import Mathlib

/-!
Verification of the multipart-upload coordinator of `xl-v1-multipart.go`
(minio XL backend, 2016 era).  The Go source is shallowly embedded below:
pure helpers become Lean functions, and the stateful coordinator operations
(`newMultipartUpload`, `putObjectPart`, `listObjectParts`,
`CompleteMultipartUpload`, `abortMultipartUpload`) become explicit
state-passing functions over a logical single-disk view of the per-object
multipart directory.  Erasure striping, per-disk checksum bookkeeping and
quorum reads are collapsed to that logical view: every claim under study is
about the logical contents of `xl.json`, the part files, `uploads.json` and
the returned values, none of which depend on the sharding itself.
-/

deriving instance DecidableEq for Except

set_option maxRecDepth 1000000

namespace XLMultipart

/-! ### Bytes and hex encoding

Go's `encoding/hex` and `crypto/md5` are embedded directly.  Bytes are
naturals below 256; all 32-bit arithmetic is explicit `% 2^32`. -/

/-- Hex digit character for a nibble (lowercase, as Go's `hex.EncodeToString`). -/
def hexDigit (n : Nat) : Char :=
  if n < 10 then Char.ofNat (48 + n) else Char.ofNat (87 + n)

/-- Two lowercase hex characters for one byte. -/
def byteToHex (b : Nat) : List Char :=
  [hexDigit (b / 16 % 16), hexDigit (b % 16)]

/-- Hex encoding of a byte list, as Go's `hex.EncodeToString`. -/
def hexEncode (bs : List Nat) : String :=
  String.mk ((bs.map byteToHex).flatten)

/-- Value of one hex character, accepting both cases, as Go's `hex.DecodeString`. -/
def hexCharVal (c : Char) : Option Nat :=
  if '0' ≤ c ∧ c ≤ '9' then some (c.toNat - 48)
  else if 'a' ≤ c ∧ c ≤ 'f' then some (c.toNat - 87)
  else if 'A' ≤ c ∧ c ≤ 'F' then some (c.toNat - 55)
  else none

/-- Hex decoding of a character list to bytes; `none` on odd length or a
non-hex character, as Go's `hex.DecodeString` error. -/
def hexDecodeChars : List Char → Option (List Nat)
  | [] => some []
  | [_] => none
  | h :: l :: rest => do
      let hv ← hexCharVal h
      let lv ← hexCharVal l
      let bs ← hexDecodeChars rest
      some ((16 * hv + lv) :: bs)

/-! ### MD5 (RFC 1321), as used by Go's `crypto/md5` -/

/-- The 64 MD5 sine-derived round constants. -/
def md5K : List Nat :=
  [0xd76aa478, 0xe8c7b756, 0x242070db, 0xc1bdceee,
   0xf57c0faf, 0x4787c62a, 0xa8304613, 0xfd469501,
   0x698098d8, 0x8b44f7af, 0xffff5bb1, 0x895cd7be,
   0x6b901122, 0xfd987193, 0xa679438e, 0x49b40821,
   0xf61e2562, 0xc040b340, 0x265e5a51, 0xe9b6c7aa,
   0xd62f105d, 0x02441453, 0xd8a1e681, 0xe7d3fbc8,
   0x21e1cde6, 0xc33707d6, 0xf4d50d87, 0x455a14ed,
   0xa9e3e905, 0xfcefa3f8, 0x676f02d9, 0x8d2a4c8a,
   0xfffa3942, 0x8771f681, 0x6d9d6122, 0xfde5380c,
   0xa4beea44, 0x4bdecfa9, 0xf6bb4b60, 0xbebfbc70,
   0x289b7ec6, 0xeaa127fa, 0xd4ef3085, 0x04881d05,
   0xd9d4d039, 0xe6db99e5, 0x1fa27cf8, 0xc4ac5665,
   0xf4292244, 0x432aff97, 0xab9423a7, 0xfc93a039,
   0x655b59c3, 0x8f0ccc92, 0xffeff47d, 0x85845dd1,
   0x6fa87e4f, 0xfe2ce6e0, 0xa3014314, 0x4e0811a1,
   0xf7537e82, 0xbd3af235, 0x2ad7d2bb, 0xeb86d391]

/-- The 64 MD5 per-round left-rotation amounts. -/
def md5S : List Nat :=
  [7, 12, 17, 22, 7, 12, 17, 22, 7, 12, 17, 22, 7, 12, 17, 22,
   5, 9, 14, 20, 5, 9, 14, 20, 5, 9, 14, 20, 5, 9, 14, 20,
   4, 11, 16, 23, 4, 11, 16, 23, 4, 11, 16, 23, 4, 11, 16, 23,
   6, 10, 15, 21, 6, 10, 15, 21, 6, 10, 15, 21, 6, 10, 15, 21]

/-- 32-bit left rotation. -/
def rotl32 (x s : Nat) : Nat :=
  ((x <<< s) % 4294967296) ||| (x >>> (32 - s))

/-- Little-endian 32-bit word from four bytes. -/
def leWord : List Nat → Nat
  | [b0, b1, b2, b3] => b0 + 256 * b1 + 65536 * b2 + 16777216 * b3
  | _ => 0

/-- Split a byte list into groups of four (any ragged tail is dropped;
MD5 blocks are always a multiple of four bytes). -/
def chunks4 : List Nat → List (List Nat)
  | b0 :: b1 :: b2 :: b3 :: rest => [b0, b1, b2, b3] :: chunks4 rest
  | _ => []

/-- Split a padded message into 64-byte blocks. -/
def chunks64 : List Nat → List (List Nat)
  | b0 :: b1 :: b2 :: b3 :: b4 :: b5 :: b6 :: b7 ::
    b8 :: b9 :: b10 :: b11 :: b12 :: b13 :: b14 :: b15 ::
    b16 :: b17 :: b18 :: b19 :: b20 :: b21 :: b22 :: b23 ::
    b24 :: b25 :: b26 :: b27 :: b28 :: b29 :: b30 :: b31 ::
    b32 :: b33 :: b34 :: b35 :: b36 :: b37 :: b38 :: b39 ::
    b40 :: b41 :: b42 :: b43 :: b44 :: b45 :: b46 :: b47 ::
    b48 :: b49 :: b50 :: b51 :: b52 :: b53 :: b54 :: b55 ::
    b56 :: b57 :: b58 :: b59 :: b60 :: b61 :: b62 :: b63 :: rest =>
      [b0, b1, b2, b3, b4, b5, b6, b7,
       b8, b9, b10, b11, b12, b13, b14, b15,
       b16, b17, b18, b19, b20, b21, b22, b23,
       b24, b25, b26, b27, b28, b29, b30, b31,
       b32, b33, b34, b35, b36, b37, b38, b39,
       b40, b41, b42, b43, b44, b45, b46, b47,
       b48, b49, b50, b51, b52, b53, b54, b55,
       b56, b57, b58, b59, b60, b61, b62, b63] :: chunks64 rest
  | _ => []

/-- `count` little-endian bytes of `v`. -/
def leBytes : Nat → Nat → List Nat
  | 0, _ => []
  | n + 1, v => v % 256 :: leBytes n (v / 256)

/-- One MD5 round: `st = (A, B, C, D)`, round index `i`, message words `M`. -/
def md5Round (M : List Nat) (st : Nat × Nat × Nat × Nat) (i : Nat) :
    Nat × Nat × Nat × Nat :=
  let A := st.1
  let B := st.2.1
  let C := st.2.2.1
  let D := st.2.2.2
  let Fg : Nat × Nat :=
    if i < 16 then ((B &&& C) ||| (Nat.xor B 4294967295 &&& D), i)
    else if i < 32 then ((D &&& B) ||| (Nat.xor D 4294967295 &&& C), (5 * i + 1) % 16)
    else if i < 48 then (Nat.xor (Nat.xor B C) D, (3 * i + 5) % 16)
    else (Nat.xor C (B ||| Nat.xor D 4294967295), (7 * i) % 16)
  let F2 := (Fg.1 + A + md5K.getD i 0 + M.getD Fg.2 0) % 4294967296
  (D, (B + rotl32 F2 (md5S.getD i 0)) % 4294967296, B, C)

/-- Process one 64-byte block, updating the running MD5 state. -/
def md5ProcessBlock (st : Nat × Nat × Nat × Nat) (block : List Nat) :
    Nat × Nat × Nat × Nat :=
  let M := (chunks4 block).map leWord
  let r := (List.range 64).foldl (md5Round M) st
  ((st.1 + r.1) % 4294967296,
   (st.2.1 + r.2.1) % 4294967296,
   (st.2.2.1 + r.2.2.1) % 4294967296,
   (st.2.2.2 + r.2.2.2) % 4294967296)

/-- MD5 padding: `0x80`, zeros to 56 mod 64, then the bit length as eight
little-endian bytes. -/
def md5Pad (msg : List Nat) : List Nat :=
  let len := msg.length
  let k := (120 - (len + 1) % 64) % 64
  msg ++ [128] ++ List.replicate k 0 ++ leBytes 8 (8 * len)

/-- The 16-byte MD5 digest of a byte list. -/
def md5Bytes (msg : List Nat) : List Nat :=
  let blocks := chunks64 (md5Pad msg)
  let r := blocks.foldl md5ProcessBlock (1732584193, 4023233417, 2562383102, 271733878)
  leBytes 4 r.1 ++ leBytes 4 r.2.1 ++ leBytes 4 r.2.2.1 ++ leBytes 4 r.2.2.2

/-- Lowercase hex MD5 digest, as `hex.EncodeToString(md5Writer.Sum(nil))`. -/
def md5HexDigest (msg : List Nat) : String :=
  hexEncode (md5Bytes msg)

/-! ### Data model

The logical view of one object's multipart state: the set of in-flight
upload directories (each holding its `xl.json` and part files), the
`uploads.json` registry, and the committed object (if any) at
`bucket/object`.  Read failures of `uploads.json` — which in Go can happen
for any I/O reason — are injected through an explicit `readUploadsFails`
argument on the operations that read it. -/

/-- One entry of `xl.json`'s `parts[]`: `objectPartInfo` in the Go source. -/
structure objectPartInfo where
  number : Nat
  name : String
  etag : String
  size : Int
  deriving Repr, DecidableEq, Inhabited

/-- The `stat` section of `xl.json`. -/
structure statInfo where
  size : Int
  modTime : Nat
  version : Nat
  deriving Repr, DecidableEq, Inhabited

/-- The logical `xl.json` record: `xlMetaV1` in the Go source, with the
per-disk erasure/checksum bookkeeping collapsed away (no claim under study
depends on it). -/
structure xlMetaV1 where
  stat : statInfo
  meta : List (String × String)
  parts : List objectPartInfo
  deriving Repr, DecidableEq, Inhabited

/-- One element of the `parts` argument of `CompleteMultipartUpload`:
`completePart` in the Go source. -/
structure completePart where
  PartNumber : Nat
  ETag : String
  deriving Repr, DecidableEq, Inhabited

/-- One entry of a `ListObjectParts` result: `partInfo` in the Go source. -/
structure partInfo where
  PartNumber : Nat
  ETag : String
  LastModified : Nat
  Size : Int
  deriving Repr, DecidableEq, Inhabited

/-- The `ListObjectParts` result: `ListPartsInfo` in the Go source. -/
structure ListPartsInfo where
  Bucket : String
  Object : String
  UploadID : String
  MaxParts : Int
  Parts : List partInfo
  IsTruncated : Bool
  NextPartNumberMarker : Nat
  deriving Repr, DecidableEq, Inhabited

/-- One upload's directory under `/multipart/<bucket>/<object>/<uploadID>/`:
its `xl.json` and the names of the part files present. -/
structure UploadState where
  xlMeta : xlMetaV1
  partFiles : List String
  deriving Repr, DecidableEq, Inhabited

/-- The per-object multipart state plus the committed object location. -/
structure MpartObjState where
  uploadsJSON : List String
  uploadDirs : List (String × UploadState)
  committed : Option (xlMetaV1 × List String)
  deriving Repr, DecidableEq, Inhabited

/-- External collaborators consumed by the coordinator (spec §6): name
validation, bucket existence, the parent-dir-is-object probe of
`CompleteMultipartUpload`, and the MIME lookup used by Initiate. -/
structure Env where
  isValidBucketName : String → Bool
  isBucketExist : String → Bool
  isValidObjectName : String → Bool
  parentDirIsObject : String → String → Bool
  contentTypeOf : String → String

/-- Storage-level effects of an operation, in program order. -/
inductive StorageEvent where
  | deletePartFile (name : String)
  | commitRename
  | deleteMultipartDir
  deriving Repr, DecidableEq

/-- Error taxonomy of the coordinator (spec §7). -/
inductive ObjErr where
  | BucketNameInvalid
  | BucketNotFound
  | ObjectNameInvalid
  | InvalidUploadID
  | InvalidPart
  | BadDigest
  | PartTooSmall
  | errFileAccessDenied
  | errFileNotFound
  | badETagHex
  deriving Repr, DecidableEq

/-! ### Helpers of `xlMetaV1` and the registry -/

/-- Linear scan for the first part with the given number, returning its
index. -/
def objectPartIndexAux (partNumber : Nat) : List objectPartInfo → Option Nat
  | [] => none
  | p :: rest =>
    if p.number == partNumber then some 0
    else (objectPartIndexAux partNumber rest).map (· + 1)

/-- Index of the part with the given number in `parts[]`, as
`xlMetaV1.ObjectPartIndex` (xl-v1-metadata.go, not under src/): a linear
scan returning the first matching index, `-1` (here `none`) when absent. -/
def xlMetaV1.ObjectPartIndex (m : xlMetaV1) (partNumber : Nat) : Option Nat :=
  objectPartIndexAux partNumber m.parts

/-- Insert a part entry into a number-ordered parts list, replacing an
entry with the same number. -/
def insertPart (p : objectPartInfo) : List objectPartInfo → List objectPartInfo
  | [] => [p]
  | q :: rest =>
    if p.number < q.number then p :: q :: rest
    else if p.number == q.number then p :: rest
    else q :: insertPart p rest

/-- Modelled from the spec: `xlMetaV1.AddObjectPart` (xl-v1-metadata.go,
not under src/) — "append/replace the `Part{number, name, etag, size}`
entry", keeping `parts[]` ordered by part number with each number at most
once. -/
def xlMetaV1.AddObjectPart (m : xlMetaV1) (partNumber : Nat)
    (partName partETag : String) (partSize : Int) : xlMetaV1 :=
  { m with parts := insertPart ⟨partNumber, partName, partETag, partSize⟩ m.parts }

/-- Modelled from the spec: `isMinAllowedPartSize` (object-api-multipart
helpers, not under src/) — "every part except the last ... must be ≥ 5 MiB". -/
def isMinAllowedPartSize (size : Int) : Bool :=
  5242880 ≤ size

/-- The listing cap: `maxPartsList`, "typically 1000" per the spec. -/
def maxPartsList : Int := 1000

/-- Look up an upload directory by uploadID. -/
def lookupUpload (st : MpartObjState) (uploadID : String) : Option UploadState :=
  (st.uploadDirs.find? (fun e => e.1 == uploadID)).map (·.2)

/-- Replace the first binding of an upload directory, or add one. -/
def setUpload : List (String × UploadState) → String → UploadState →
    List (String × UploadState)
  | [], uploadID, ud => [(uploadID, ud)]
  | e :: rest, uploadID, ud =>
    if e.1 == uploadID then (uploadID, ud) :: rest
    else e :: setUpload rest uploadID ud

/-- Remove an upload directory, as `cleanupUploadedParts` /
the commit rename do. -/
def removeUpload (dirs : List (String × UploadState)) (uploadID : String) :
    List (String × UploadState) :=
  dirs.filter (fun e => e.1 != uploadID)

/-- Add a file name to a directory listing (rename-over semantics:
at most one occurrence). -/
def insertFile (name : String) (files : List String) : List String :=
  if files.contains name then files else files ++ [name]

/-- Read a key from the string map carried in `meta`. -/
def getMeta (meta : List (String × String)) (key : String) : Option String :=
  (meta.find? (fun e => e.1 == key)).map (·.2)

/-- Set a key in the string map carried in `meta`. -/
def setMeta (meta : List (String × String)) (key val : String) :
    List (String × String) :=
  if meta.any (fun e => e.1 == key) then
    meta.map (fun e => if e.1 == key then (key, val) else e)
  else meta ++ [(key, val)]

/-- Sequential hex decoding of the client part ETags to binary MD5s,
failing on the first non-hex ETag. -/
def decodeETags : List completePart → Option (List (List Nat))
  | [] => some []
  | p :: rest =>
    match hexDecodeChars p.ETag.data with
    | none => none
    | some b =>
      match decodeETags rest with
      | none => none
      | some bs => some (b :: bs)

/-- Modelled from the spec: `completeMultipartMD5` (not under src/) — "MD5
of the concatenation of each part's binary MD5, hex-encoded, suffixed
`-<count>`. Order follows `clientParts[]`"; a part ETag that is not valid
hex is the error case of Go's `hex.DecodeString`. -/
def completeMultipartMD5 (parts : List completePart) : Except ObjErr String :=
  match decodeETags parts with
  | none => .error .badETagHex
  | some bins => .ok (hexEncode (md5Bytes bins.flatten) ++ "-" ++ toString parts.length)

/-- The composite-ETag byte string: concatenation of the decoded binary
MD5s of the client parts, in client order. -/
def binaryETags (parts : List completePart) : List Nat :=
  (parts.map (fun p => (hexDecodeChars p.ETag.data).getD [])).flatten

/-! ### The coordinator operations -/

/-- `newMultipartUpload` (src lines 38-93): validate names, default the
content type (MIME lookup is the external `mimedb`, abstracted into
`env.contentTypeOf`), build a fresh `xlMetaV1` with `version = 1`,
`modTime = now` and no parts, append `uploadID` to `uploads.json`
(`writeUploadJSON`) and rename the staged `xl.json` into
`/multipart/<bucket>/<object>/<uploadID>/`.  `getUUID` is external: the
fresh `uploadID` is an argument. -/
def newMultipartUpload (env : Env) (st : MpartObjState) (bucket object : String)
    (meta : List (String × String)) (uploadID : String) (now : Nat) :
    Except ObjErr String × MpartObjState :=
  if ¬ env.isValidBucketName bucket then (.error .BucketNameInvalid, st)
  else if ¬ env.isBucketExist bucket then (.error .BucketNotFound, st)
  else if ¬ env.isValidObjectName object then (.error .ObjectNameInvalid, st)
  else
    let meta' :=
      if (getMeta meta "content-type").getD "" == "" then
        setMeta meta "content-type" (env.contentTypeOf object)
      else meta
    let xlMeta : xlMetaV1 :=
      { stat := { size := 0, modTime := now, version := 1 }, meta := meta', parts := [] }
    (.ok uploadID,
     { st with uploadsJSON := st.uploadsJSON ++ [uploadID],
               uploadDirs := setUpload st.uploadDirs uploadID ⟨xlMeta, []⟩ })

/-- `putObjectPart` (src lines 101-226): validate, require the upload to
exist, stream `data` through an MD5 writer (the `io.ReadFull` loop feeds
exactly the stream's bytes, in order, into the hash), compare a non-empty
`md5Hex` argument against the computed digest with Go string inequality,
rename the staged part file into place and update `xl.json` through
`AddObjectPart` — note the recorded size is the `size` argument, not a
byte count of `data`. -/
def putObjectPart (env : Env) (st : MpartObjState) (bucket object uploadID : String)
    (partID : Nat) (size : Int) (data : List Nat) (md5Hex : String) :
    Except ObjErr String × MpartObjState :=
  if ¬ env.isValidBucketName bucket then (.error .BucketNameInvalid, st)
  else if ¬ env.isBucketExist bucket then (.error .BucketNotFound, st)
  else if ¬ env.isValidObjectName object then (.error .ObjectNameInvalid, st)
  else
    match lookupUpload st uploadID with
    | none => (.error .InvalidUploadID, st)
    | some ud =>
      let newMD5Hex := md5HexDigest data
      if md5Hex ≠ "" ∧ newMD5Hex ≠ md5Hex then (.error .BadDigest, st)
      else
        let partSuffix := "object" ++ toString partID
        let xlMeta' := ud.xlMeta.AddObjectPart partID partSuffix newMD5Hex size
        let ud' : UploadState := ⟨xlMeta', insertFile partSuffix ud.partFiles⟩
        (.ok newMD5Hex, { st with uploadDirs := setUpload st.uploadDirs uploadID ud' })

/-- `statPart` collaborator: stat a part file in the upload directory;
fails when the file is absent.  `modTime` is not tracked by the model and
reads as `0`. -/
def statPart (ud : UploadState) (name : String) : Except ObjErr Nat :=
  if ud.partFiles.contains name then .ok 0 else .error .errFileNotFound

/-- The slice of `parts[]` the listing walks after the marker skip
(src lines 279-284): everything after the marker's index when
`ObjectPartIndex(partNumberMarker)` finds it, the whole list otherwise. -/
def listedCandidates (m : xlMetaV1) (partNumberMarker : Nat) : List objectPartInfo :=
  match m.ObjectPartIndex partNumberMarker with
  | some idx => m.parts.drop (idx + 1)
  | none => m.parts

/-- The result entry built for one stored part (src lines 293-298). -/
def entryOf (p : objectPartInfo) : partInfo :=
  ⟨p.number, p.etag, 0, p.size⟩

/-- The listing loop (src lines 285-303): stat each candidate part,
append its entry, decrement `count` and stop when it hits zero. -/
def listLoop (ud : UploadState) (count : Int) :
    List objectPartInfo → Except ObjErr (List partInfo)
  | [] => .ok []
  | p :: rest =>
    match statPart ud p.name with
    | .error e => .error e
    | .ok modTime =>
      let entry : partInfo := ⟨p.number, p.etag, modTime, p.size⟩
      if count - 1 = 0 then .ok [entry]
      else
        match listLoop ud (count - 1) rest with
        | .error e => .error e
        | .ok es => .ok (entry :: es)

/-- `listObjectParts` (src lines 234-313): validate, require the upload,
populate the result stub (`MaxParts` echoes the argument), return the stub
when there are no parts or `maxParts = 0`, clamp `maxParts` to
`maxPartsList`, skip via `ObjectPartIndex(partNumberMarker)`, walk the
candidates, and set `IsTruncated`/`NextPartNumberMarker` when the sliced
list is longer than what was emitted. -/
def listObjectParts (env : Env) (st : MpartObjState) (bucket object uploadID : String)
    (partNumberMarker : Nat) (maxParts : Int) : Except ObjErr ListPartsInfo :=
  if ¬ env.isValidBucketName bucket then .error .BucketNameInvalid
  else if ¬ env.isBucketExist bucket then .error .BucketNotFound
  else if ¬ env.isValidObjectName object then .error .ObjectNameInvalid
  else
    match lookupUpload st uploadID with
    | none => .error .InvalidUploadID
    | some ud =>
      let xlMeta := ud.xlMeta
      let result0 : ListPartsInfo :=
        { Bucket := bucket, Object := object, UploadID := uploadID,
          MaxParts := maxParts, Parts := [], IsTruncated := false,
          NextPartNumberMarker := 0 }
      if xlMeta.parts.length = 0 ∨ maxParts = 0 then .ok result0
      else
        let clamped := if maxParts > maxPartsList then maxPartsList else maxParts
        let parts := listedCandidates xlMeta partNumberMarker
        match listLoop ud clamped parts with
        | .error e => .error e
        | .ok es =>
          if parts.length > es.length then
            let nextMarker := ((es.getLast?).map (·.PartNumber)).getD 0
            .ok { result0 with Parts := es, IsTruncated := true, NextPartNumberMarker := nextMarker }
          else
            .ok { result0 with Parts := es }

/-- One validation step of the `CompleteMultipartUpload` loop
(src lines 371-382): part number must exist (`InvalidPart`), the stored
etag must equal the client etag (`BadDigest`), and a part that is not last
in the client list must have stored size ≥ 5 MiB (`PartTooSmall`). -/
def partCheck (cur : xlMetaV1) (isLastPart : Bool) (p : completePart) : Option ObjErr :=
  match cur.ObjectPartIndex p.PartNumber with
  | none => some .InvalidPart
  | some idx =>
    let sp := cur.parts.getD idx default
    if sp.etag ≠ p.ETag then some .BadDigest
    else if ¬ isLastPart ∧ ¬ isMinAllowedPartSize sp.size then some .PartTooSmall
    else none

/-- The first validation error of the client parts, in client order. -/
def firstPartError (cur : xlMetaV1) : List completePart → Option ObjErr
  | [] => none
  | p :: rest =>
    match partCheck cur rest.isEmpty p with
    | some e => some e
    | none => firstPartError cur rest

/-- The validation loop of `CompleteMultipartUpload` (src lines 367-394):
on success returns the rebuilt `parts[]` — exactly the client parts, in
client order, with stored sizes and names `object<number>` — and the
accumulated object size. -/
def validateParts (cur : xlMetaV1) :
    List completePart → Except ObjErr (List objectPartInfo × Int)
  | [] => .ok ([], 0)
  | p :: rest =>
    match cur.ObjectPartIndex p.PartNumber with
    | none => .error .InvalidPart
    | some idx =>
      let sp := cur.parts.getD idx default
      if sp.etag ≠ p.ETag then .error .BadDigest
      else if ¬ rest.isEmpty ∧ ¬ isMinAllowedPartSize sp.size then .error .PartTooSmall
      else
        match validateParts cur rest with
        | .error e => .error e
        | .ok (ps, sz) =>
          .ok (⟨p.PartNumber, "object" ++ toString p.PartNumber, p.ETag, sp.size⟩ :: ps,
               sp.size + sz)

/-- The rebuilt `xl.json` record of a complete (src lines 367-406): size
and modTime updated, `md5Sum` set, `parts` replaced by the client
selection. -/
def completeXLMeta (ud : UploadState) (ps : List objectPartInfo) (sz : Int)
    (now : Nat) (s3MD5 : String) : xlMetaV1 :=
  { stat := { size := sz, modTime := now, version := ud.xlMeta.stat.version },
    meta := setMeta ud.xlMeta.meta "md5Sum" s3MD5,
    parts := ps }

/-- The stored parts whose number is absent from the rebuilt record
(src lines 436-447): uploaded but not selected. -/
def completeTrimmed (ud : UploadState) (meta2 : xlMetaV1) : List objectPartInfo :=
  ud.xlMeta.parts.filter (fun cp => (meta2.ObjectPartIndex cp.number).isNone)

/-- The state right after the commit rename (src lines 429-455): the
upload's directory is renamed onto `bucket/object` with the trimmed part
files deleted just before, so the committed directory holds the remaining
files. -/
def completeStagedState (st : MpartObjState) (uploadID : String)
    (ud : UploadState) (ps : List objectPartInfo) (sz : Int) (now : Nat)
    (s3MD5 : String) : MpartObjState :=
  let meta2 := completeXLMeta ud ps sz now s3MD5
  let trimmed := completeTrimmed ud meta2
  { st with uploadDirs := removeUpload st.uploadDirs uploadID,
            committed := some (meta2,
              ud.partFiles.filter (fun f => ¬ trimmed.any (fun cp => cp.name == f))) }

/-- The shared tail of `CompleteMultipartUpload` (src lines 462-481) and
`abortMultipartUpload` (src lines 515-533): read `uploads.json`
(`readUploadsFails` injects the I/O failure), remove `uploadID` when
found, keep the registry if other uploads remain, and otherwise — or when
the read failed — delete the whole `/multipart/<bucket>/<object>/`
directory. -/
def uploadsTail (st : MpartObjState) (uploadID : String) (readUploadsFails : Bool) :
    MpartObjState × List StorageEvent :=
  if readUploadsFails then
    ({ st with uploadsJSON := [], uploadDirs := [] }, [.deleteMultipartDir])
  else
    let remaining := st.uploadsJSON.erase uploadID
    if remaining.isEmpty then
      ({ st with uploadsJSON := [], uploadDirs := [] }, [.deleteMultipartDir])
    else
      ({ st with uploadsJSON := remaining }, [])

/-- `CompleteMultipartUpload` (src lines 320-485): validate, require the
upload, compute the composite ETag, validate the client parts against the
current metadata, reject a parent-dir collision, rebuild `xl.json`
(`stat.size`, `stat.modTime = now`, `meta["md5Sum"]`, `parts :=`
client parts), pre-swap any existing object aside, delete the trimmed part
files, commit by renaming the upload directory onto `bucket/object`, and
run the `uploads.json` tail.  Returns the result, the new state, and the
storage events in program order. -/
def CompleteMultipartUpload (env : Env) (st : MpartObjState)
    (bucket object uploadID : String) (parts : List completePart) (now : Nat)
    (readUploadsFails : Bool) :
    Except ObjErr String × MpartObjState × List StorageEvent :=
  if ¬ env.isValidBucketName bucket then (.error .BucketNameInvalid, st, [])
  else if ¬ env.isBucketExist bucket then (.error .BucketNotFound, st, [])
  else if ¬ env.isValidObjectName object then (.error .ObjectNameInvalid, st, [])
  else
    match lookupUpload st uploadID with
    | none => (.error .InvalidUploadID, st, [])
    | some ud =>
      match completeMultipartMD5 parts with
      | .error e => (.error e, st, [])
      | .ok s3MD5 =>
        match validateParts ud.xlMeta parts with
        | .error e => (.error e, st, [])
        | .ok (newParts, objectSize) =>
          if env.parentDirIsObject bucket object then
            (.error .errFileAccessDenied, st, [])
          else
            let st1 := completeStagedState st uploadID ud newParts objectSize now s3MD5
            let tail := uploadsTail st1 uploadID readUploadsFails
            (.ok s3MD5, tail.1,
             (completeTrimmed ud (completeXLMeta ud newParts objectSize now s3MD5)).map
                 (fun cp => StorageEvent.deletePartFile cp.name)
               ++ [StorageEvent.commitRename] ++ tail.2)

/-- `abortMultipartUpload` (src lines 488-535): validate, require the
upload, delete the upload's part files and directory
(`cleanupUploadedParts`), and run the `uploads.json` tail. -/
def abortMultipartUpload (env : Env) (st : MpartObjState)
    (bucket object uploadID : String) (readUploadsFails : Bool) :
    Except ObjErr Unit × MpartObjState × List StorageEvent :=
  if ¬ env.isValidBucketName bucket then (.error .BucketNameInvalid, st, [])
  else if ¬ env.isBucketExist bucket then (.error .BucketNotFound, st, [])
  else if ¬ env.isValidObjectName object then (.error .ObjectNameInvalid, st, [])
  else
    match lookupUpload st uploadID with
    | none => (.error .InvalidUploadID, st, [])
    | some _ =>
      let st1 : MpartObjState :=
        { st with uploadDirs := removeUpload st.uploadDirs uploadID }
      let tail := uploadsTail st1 uploadID readUploadsFails
      (.ok (), tail.1, tail.2)

/-! ### Concrete fixtures used by witnesses and counterexamples -/

/-- Environment with a valid, existing bucket, valid object names and no
parent-dir collision. -/
def env0 : Env :=
  ⟨fun _ => true, fun _ => true, fun _ => true, fun _ _ => false,
   fun _ => "application/octet-stream"⟩

/-- The MD5 of the empty byte string, used as a stored part etag. -/
def etag0 : String := "d41d8cd98f00b204e9800998ecf8427e"

/-- An upload metadata record with two 5 MiB parts. -/
def metaA : xlMetaV1 :=
  ⟨⟨0, 0, 1⟩, [("content-type", "application/octet-stream")],
   [⟨1, "object1", etag0, 5242880⟩, ⟨2, "object2", etag0, 5242880⟩]⟩

/-- A state with one upload `u` holding parts 1 and 2. -/
def stA : MpartObjState :=
  ⟨["u"], [("u", ⟨metaA, ["object1", "object2"]⟩)], none⟩

/-- A state with one freshly initiated upload `u` (no parts). -/
def stB : MpartObjState :=
  ⟨["u"], [("u", ⟨⟨⟨0, 0, 1⟩, [], []⟩, []⟩)], none⟩

/-- An upload metadata record with parts 1 and 3 (no part 2). -/
def meta8 : xlMetaV1 :=
  ⟨⟨0, 0, 1⟩, [], [⟨1, "object1", etag0, 5242880⟩, ⟨3, "object3", etag0, 100⟩]⟩

/-- A state with one upload `u` holding parts 1 and 3. -/
def st8 : MpartObjState :=
  ⟨["u"], [("u", ⟨meta8, ["object1", "object3"]⟩)], none⟩

/-- A state with two live uploads `u` and `v` for the same object. -/
def stUV : MpartObjState :=
  ⟨["u", "v"],
   [("u", ⟨metaA, ["object1", "object2"]⟩), ("v", ⟨⟨⟨0, 0, 1⟩, [], []⟩, []⟩)],
   none⟩

/-- ASCII lowercase of one character, for stating case-insensitive
comparison of hex digests. -/
def asciiLowerChar (c : Char) : Char :=
  if 'A' ≤ c ∧ c ≤ 'Z' then Char.ofNat (c.toNat + 32) else c

/-! ### Claim C5: the MD5 comparison of `putObjectPart` -/

/-- C5 counterexample: `putObjectPart` with an uppercase `md5Hex` argument
that equals the computed digest up to ASCII case fails `BadDigest` — the
comparison at src line 173 is Go string inequality, not case-insensitive. -/
theorem putObjectPart_uppercase_md5_rejected_cex :
    (putObjectPart env0 stB "b" "o" "u" 1 0 []
        "D41D8CD98F00B204E9800998ECF8427E").1 = .error .BadDigest
      ∧ "D41D8CD98F00B204E9800998ECF8427E".data.map asciiLowerChar
          = (md5HexDigest []).data := by
  decide

/-- C5 (amended): for every `putObjectPart` call on an existing upload in a
valid, existing bucket, the call fails `BadDigest` exactly when the `md5Hex`
argument is non-empty and differs from the computed lowercase hex digest as
an exact (case-sensitive) string. -/
theorem putObjectPart_badDigest_iff (env : Env) (st : MpartObjState)
    (bucket object uploadID : String) (partID : Nat) (size : Int)
    (data : List Nat) (md5Hex : String)
    (h1 : env.isValidBucketName bucket = true)
    (h2 : env.isBucketExist bucket = true)
    (h3 : env.isValidObjectName object = true)
    (h4 : (lookupUpload st uploadID).isSome = true) :
    ((putObjectPart env st bucket object uploadID partID size data md5Hex).1
        = .error .BadDigest)
      ↔ md5Hex ≠ "" ∧ md5Hex ≠ md5HexDigest data := by
  obtain ⟨ud, hud⟩ := Option.isSome_iff_exists.mp h4
  unfold putObjectPart
  rw [h1, h2, h3, hud]
  simp only [not_true_eq_false, if_false, Bool.false_eq_true]
  by_cases hc : md5Hex ≠ "" ∧ md5HexDigest data ≠ md5Hex
  · rw [if_pos hc]
    constructor
    · intro _
      exact ⟨hc.1, fun h => hc.2 h.symm⟩
    · intro _
      rfl
  · rw [if_neg hc]
    constructor
    · intro h
      simp at h
    · intro hcontra
      exact absurd ⟨hcontra.1, fun h => hcontra.2 h.symm⟩ hc

/-- C5 witness: the amended characterization at a concrete input with a
failing digest check. -/
theorem putObjectPart_badDigest_iff_w :
    ((putObjectPart env0 stB "b" "o" "u" 1 0 [65] "zz").1 = .error .BadDigest)
      ↔ ("zz" : String) ≠ "" ∧ ("zz" : String) ≠ md5HexDigest [65] :=
  putObjectPart_badDigest_iff env0 stB "b" "o" "u" 1 0 [65] "zz"
    (by decide) (by decide) (by decide) (by decide)

/-! ### Claim C10: `maxParts = 0` and the `MaxParts` echo -/

/-- C10: on an existing upload whose metadata lists at least one part,
`listObjectParts` with `maxParts = 0` returns success with an empty part
list, `IsTruncated = false` and a zero `NextPartNumberMarker`; and every
successful listing echoes the caller's original `maxParts` argument in
`MaxParts`, even when the walk was clamped to `maxPartsList`. -/
theorem listObjectParts_maxPartsZero_and_echo :
    (∀ (env : Env) (st : MpartObjState) (b o uid : String) (marker : Nat)
        (ud : UploadState),
        env.isValidBucketName b = true → env.isBucketExist b = true →
        env.isValidObjectName o = true → lookupUpload st uid = some ud →
        ud.xlMeta.parts ≠ [] →
        listObjectParts env st b o uid marker 0 = .ok ⟨b, o, uid, 0, [], false, 0⟩)
    ∧ (∀ (env : Env) (st : MpartObjState) (b o uid : String) (marker : Nat)
        (maxP : Int) (r : ListPartsInfo),
        listObjectParts env st b o uid marker maxP = .ok r → r.MaxParts = maxP) := by
  constructor
  · intro env st b o uid marker ud h1 h2 h3 hud _
    unfold listObjectParts
    rw [h1, h2, h3, hud]
    simp
  · intro env st b o uid marker maxP r h
    simp only [listObjectParts] at h
    repeat' split at h
    all_goals simp_all
    all_goals subst h
    all_goals rfl

/-- C10 witness: both conjuncts at a concrete input. -/
theorem listObjectParts_maxPartsZero_and_echo_w :
    listObjectParts env0 stA "b" "o" "u" 0 0 = .ok ⟨"b", "o", "u", 0, [], false, 0⟩
    ∧ (listObjectParts env0 stA "b" "o" "u" 0 0 = .ok ⟨"b", "o", "u", 0, [], false, 0⟩
        → (⟨"b", "o", "u", 0, [], false, 0⟩ : ListPartsInfo).MaxParts = 0) :=
  ⟨listObjectParts_maxPartsZero_and_echo.1 env0 stA "b" "o" "u" 0
      ⟨metaA, ["object1", "object2"]⟩ (by decide) (by decide) (by decide)
      (by decide) (by decide),
   fun h => listObjectParts_maxPartsZero_and_echo.2 env0 stA "b" "o" "u" 0 0 _ h⟩

/-! ### Claim C9: a failed `uploads.json` read wipes the whole directory -/

/-- Shape of the shared tail when the `uploads.json` read fails. -/
theorem uploadsTail_readFail (st : MpartObjState) (uid : String) :
    uploadsTail st uid true
      = ({ st with uploadsJSON := [], uploadDirs := [] }, [.deleteMultipartDir]) := rfl

/-- C9: when reading `uploads.json` fails at the tail of
`abortMultipartUpload` or `CompleteMultipartUpload`, the operation deletes
the entire per-object multipart directory — wiping every upload directory,
including other still-active uploads — and returns success (the delete
always succeeds in the model, as it does in Go whenever the fan-out delete
reports no error). -/
theorem readFail_deletes_multipart_dir :
    (∀ (env : Env) (st : MpartObjState) (b o uid : String)
        (res : Except ObjErr Unit) (st' : MpartObjState) (ev : List StorageEvent),
        abortMultipartUpload env st b o uid true = (res, st', ev) →
        res = .ok () →
        st'.uploadDirs = [] ∧ st'.uploadsJSON = [] ∧ .deleteMultipartDir ∈ ev)
    ∧ (∀ (env : Env) (st : MpartObjState) (b o uid : String)
        (parts : List completePart) (now : Nat)
        (res : Except ObjErr String) (st' : MpartObjState) (ev : List StorageEvent),
        CompleteMultipartUpload env st b o uid parts now true = (res, st', ev) →
        (∃ s, res = .ok s) →
        st'.uploadDirs = [] ∧ st'.uploadsJSON = [] ∧ .deleteMultipartDir ∈ ev) := by
  constructor
  · intro env st b o uid res st' ev h hres
    subst hres
    unfold abortMultipartUpload at h
    repeat' split at h
    all_goals simp_all [uploadsTail_readFail]
    obtain ⟨h2, h3⟩ := h
    subst h2
    subst h3
    simp
  · intro env st b o uid parts now res st' ev h hres
    obtain ⟨s, rfl⟩ := hres
    unfold CompleteMultipartUpload at h
    repeat' split at h
    all_goals simp_all [uploadsTail_readFail]
    obtain ⟨-, h2, h3⟩ := h
    subst h2
    subst h3
    simp

/-! ### Claim C1: the composite ETag of `CompleteMultipartUpload` -/

/-- A successful decode concatenates to exactly the binary ETag string. -/
theorem decodeETags_flatten (parts : List completePart) (bins : List (List Nat))
    (h : decodeETags parts = some bins) : bins.flatten = binaryETags parts := by
  induction parts generalizing bins with
  | nil =>
    simp only [decodeETags, Option.some.injEq] at h
    subst h
    simp [binaryETags]
  | cons p rest ih =>
    cases hdec : hexDecodeChars p.ETag.data with
    | none =>
      unfold decodeETags at h
      rw [hdec] at h
      exact absurd h (by simp)
    | some b =>
      cases hrest : decodeETags rest with
      | none =>
        unfold decodeETags at h
        rw [hdec, hrest] at h
        exact absurd h (by simp)
      | some bs =>
        unfold decodeETags at h
        rw [hdec, hrest] at h
        obtain rfl := (Option.some.injEq _ _).mp h
        simp only [List.flatten_cons]
        rw [ih bs hrest]
        simp [binaryETags, hdec]

/-- A successful `CompleteMultipartUpload` returns exactly the value of
`completeMultipartMD5` on the client parts. -/
theorem complete_ok_md5 (env : Env) (st : MpartObjState) (b o uid : String)
    (parts : List completePart) (now : Nat) (rf : Bool) (etagStr : String)
    (h : (CompleteMultipartUpload env st b o uid parts now rf).1 = .ok etagStr) :
    completeMultipartMD5 parts = .ok etagStr := by
  unfold CompleteMultipartUpload at h
  repeat' split at h
  all_goals simp_all

/-- C1: a successful `CompleteMultipartUpload` returns the S3 composite
ETag — the lowercase hex MD5 of the concatenation of the client parts'
binary MD5s, taken in the order of `clientParts[]`, suffixed with a dash
and the number of client parts. -/
theorem CompleteMultipartUpload_composite_etag (env : Env) (st : MpartObjState)
    (b o uid : String) (parts : List completePart) (now : Nat) (rf : Bool)
    (etagStr : String)
    (h : (CompleteMultipartUpload env st b o uid parts now rf).1 = .ok etagStr) :
    etagStr = hexEncode (md5Bytes (binaryETags parts)) ++ "-" ++ toString parts.length := by
  have hmd5 := complete_ok_md5 env st b o uid parts now rf etagStr h
  unfold completeMultipartMD5 at hmd5
  split at hmd5
  · exact absurd hmd5 (by simp)
  · rename_i bins heq
    have hval : hexEncode (md5Bytes bins.flatten) ++ "-" ++ toString parts.length = etagStr :=
      (Except.ok.injEq _ _).mp hmd5
    rw [← hval, decodeETags_flatten parts bins heq]

/-- C1 witness: completing with one selected part returns the composite
ETag of that single binary MD5. -/
theorem CompleteMultipartUpload_composite_etag_w :
    (CompleteMultipartUpload env0 stA "b" "o" "u" [⟨1, etag0⟩] 7 false).1
        = .ok "59adb24ef3cdbe0297f05b395827453f-1"
    ∧ "59adb24ef3cdbe0297f05b395827453f-1"
        = hexEncode (md5Bytes (binaryETags [⟨1, etag0⟩]))
            ++ "-" ++ toString ([⟨1, etag0⟩] : List completePart).length :=
  ⟨by decide,
   CompleteMultipartUpload_composite_etag env0 stA "b" "o" "u" [⟨1, etag0⟩] 7 false
     "59adb24ef3cdbe0297f05b395827453f-1" (by decide)⟩

/-! ### Claim C2: validation of the client parts on complete -/

/-- The validation loop errors with `e` exactly when `e` is the first
per-part check failure in client order. -/
theorem validateParts_error_iff (cur : xlMetaV1) (parts : List completePart)
    (e : ObjErr) :
    validateParts cur parts = .error e ↔ firstPartError cur parts = some e := by
  induction parts with
  | nil => simp [validateParts, firstPartError]
  | cons p rest ih =>
    unfold validateParts firstPartError partCheck
    cases hidx : cur.ObjectPartIndex p.PartNumber with
    | none => simp
    | some idx =>
      simp only
      by_cases hetag : (cur.parts.getD idx default).etag ≠ p.ETag
      · rw [if_pos hetag, if_pos hetag]
        simp
      · rw [if_neg hetag, if_neg hetag]
        by_cases hsmall : ¬ rest.isEmpty = true
            ∧ ¬ isMinAllowedPartSize (cur.parts.getD idx default).size = true
        · rw [if_pos hsmall, if_pos hsmall]
          simp
        · rw [if_neg hsmall, if_neg hsmall]
          simp only
          cases hv : validateParts cur rest with
          | error e' =>
            constructor
            · intro hh
              have he : e' = e := by simpa using hh
              subst he
              exact ih.mp hv
            · intro hh
              have hvv := ih.mpr hh
              rw [hv] at hvv
              simpa using hvv
          | ok pr =>
            obtain ⟨ps, sz⟩ := pr
            constructor
            · intro hh
              exact absurd hh (by simp)
            · intro hh
              have hvv := ih.mpr hh
              rw [hv] at hvv
              exact absurd hvv (by simp)

/-- When no per-part check fails, the validation loop succeeds. -/
theorem validateParts_ok_of_no_error (cur : xlMetaV1) (parts : List completePart)
    (h : firstPartError cur parts = none) :
    ∃ pr, validateParts cur parts = .ok pr := by
  cases hv : validateParts cur parts with
  | error e =>
    rw [(validateParts_error_iff cur parts e).mp hv] at h
    exact absurd h (by simp)
  | ok pr => exact ⟨pr, rfl⟩

/-- C2: on an existing upload (with decodable client ETags so the composite
MD5 does not fail first), the in-order validation of the client parts
determines the outcome: the first failing check — a part number absent from
the stored `parts[]` (`InvalidPart`), a client ETag differing from the
stored etag (`BadDigest`), or a non-last client part with stored size below
5 MiB (`PartTooSmall`) — is returned as the error, with the state unchanged
and no storage effect; and when no check fails, none of those three errors
is returned (the only remaining error is the parent-dir collision). -/
theorem CompleteMultipartUpload_validation_errors :
    (∀ (env : Env) (st : MpartObjState) (b o uid : String)
        (parts : List completePart) (now : Nat) (rf : Bool) (ud : UploadState)
        (e : ObjErr),
        env.isValidBucketName b = true → env.isBucketExist b = true →
        env.isValidObjectName o = true → lookupUpload st uid = some ud →
        (∃ s, completeMultipartMD5 parts = .ok s) →
        firstPartError ud.xlMeta parts = some e →
        CompleteMultipartUpload env st b o uid parts now rf = (.error e, st, []))
    ∧ (∀ (env : Env) (st : MpartObjState) (b o uid : String)
        (parts : List completePart) (now : Nat) (rf : Bool) (ud : UploadState),
        env.isValidBucketName b = true → env.isBucketExist b = true →
        env.isValidObjectName o = true → lookupUpload st uid = some ud →
        (∃ s, completeMultipartMD5 parts = .ok s) →
        firstPartError ud.xlMeta parts = none →
        ∀ e, (CompleteMultipartUpload env st b o uid parts now rf).1 = .error e →
          e = .errFileAccessDenied) := by
  constructor
  · intro env st b o uid parts now rf ud e h1 h2 h3 hud hmd5 hfirst
    obtain ⟨s, hs⟩ := hmd5
    have hE := (validateParts_error_iff ud.xlMeta parts e).mpr hfirst
    unfold CompleteMultipartUpload
    rw [h1, h2, h3, hud]
    simp only [not_true_eq_false, Bool.false_eq_true, if_false, hs, hE]
  · intro env st b o uid parts now rf ud h1 h2 h3 hud hmd5 hfirst e h
    obtain ⟨s, hs⟩ := hmd5
    obtain ⟨⟨ps, sz⟩, hv⟩ := validateParts_ok_of_no_error ud.xlMeta parts hfirst
    unfold CompleteMultipartUpload at h
    rw [h1, h2, h3, hud] at h
    simp only [not_true_eq_false, Bool.false_eq_true, if_false, hs, hv] at h
    by_cases hpd : env.parentDirIsObject b o
    · simp only [hpd, if_true] at h
      simpa using h.symm
    · simp only [hpd] at h
      simp at h

/-- C2 witness: a client part number absent from the stored parts fails
`InvalidPart` with no state change and no storage effect. -/
theorem CompleteMultipartUpload_validation_errors_w :
    CompleteMultipartUpload env0 stA "b" "o" "u" [⟨5, etag0⟩] 7 false
        = (.error .InvalidPart, stA, []) :=
  CompleteMultipartUpload_validation_errors.1 env0 stA "b" "o" "u" [⟨5, etag0⟩] 7
    false ⟨metaA, ["object1", "object2"]⟩ .InvalidPart
    (by decide) (by decide) (by decide) (by decide)
    ⟨"59adb24ef3cdbe0297f05b395827453f-1", by decide⟩ (by decide)

/-! ### Claim C3: ordering of `parts[]` in the produced metadata -/

/-- Membership after a sorted insert comes from the new part or the old
list. -/
theorem mem_insertPart (p q : objectPartInfo) :
    ∀ (l : List objectPartInfo), q ∈ insertPart p l → q = p ∨ q ∈ l := by
  intro l
  induction l with
  | nil =>
    intro h
    simp only [insertPart, List.mem_singleton] at h
    exact Or.inl h
  | cons d rest ih =>
    intro h
    unfold insertPart at h
    by_cases h1 : p.number < d.number
    · rw [if_pos h1, List.mem_cons] at h
      rcases h with h | h
      · exact Or.inl h
      · exact Or.inr h
    · rw [if_neg h1] at h
      by_cases h2 : p.number == d.number
      · rw [if_pos h2, List.mem_cons] at h
        rcases h with h | h
        · exact Or.inl h
        · exact Or.inr (List.mem_cons_of_mem d h)
      · rw [if_neg h2, List.mem_cons] at h
        rcases h with h | h
        · exact Or.inr (h ▸ List.mem_cons_self d rest)
        · rcases ih h with h' | h'
          · exact Or.inl h'
          · exact Or.inr (List.mem_cons_of_mem d h')

/-- The inserted part is present after a sorted insert. -/
theorem insertPart_self (p : objectPartInfo) (l : List objectPartInfo) :
    p ∈ insertPart p l := by
  induction l with
  | nil => simp [insertPart]
  | cons d rest ih =>
    unfold insertPart
    by_cases h1 : p.number < d.number
    · rw [if_pos h1]
      exact List.mem_cons_self p _
    · rw [if_neg h1]
      by_cases h2 : p.number == d.number
      · rw [if_pos h2]
        exact List.mem_cons_self p rest
      · rw [if_neg h2]
        exact List.mem_cons_of_mem d ih

/-- A sorted insert preserves strict ordering by part number (hence also
at-most-once occurrence of each number). -/
theorem insertPart_pairwise (p : objectPartInfo) :
    ∀ (l : List objectPartInfo), List.Pairwise (fun a b => a.number < b.number) l →
      List.Pairwise (fun a b => a.number < b.number) (insertPart p l) := by
  intro l
  induction l with
  | nil =>
    intro _
    simp [insertPart]
  | cons d rest ih =>
    intro h
    rw [List.pairwise_cons] at h
    unfold insertPart
    by_cases h1 : p.number < d.number
    · rw [if_pos h1]
      rw [List.pairwise_cons]
      refine ⟨?_, List.pairwise_cons.mpr h⟩
      intro x hx
      rw [List.mem_cons] at hx
      rcases hx with hx | hx
      · rw [hx]
        exact h1
      · exact Nat.lt_trans h1 (h.1 x hx)
    · rw [if_neg h1]
      by_cases h2 : p.number == d.number
      · rw [if_pos h2]
        rw [List.pairwise_cons]
        refine ⟨?_, h.2⟩
        intro x hx
        have hpd : p.number = d.number := by simpa using h2
        exact hpd ▸ h.1 x hx
      · rw [if_neg h2]
        rw [List.pairwise_cons]
        have hdp : d.number < p.number := by
          rcases Nat.lt_trichotomy p.number d.number with ht | ht | ht
          · exact absurd ht h1
          · exact absurd (by simpa using ht) h2
          · exact ht
        refine ⟨?_, ih h.2⟩
        intro x hx
        rcases mem_insertPart p x rest hx with hx' | hx'
        · exact hx' ▸ hdp
        · exact h.1 x hx'

/-- The first binding of a freshly set upload directory is the new one. -/
theorem find_setUpload (dirs : List (String × UploadState)) (uid : String)
    (ud : UploadState) :
    (setUpload dirs uid ud).find? (fun e => e.1 == uid) = some (uid, ud) := by
  induction dirs with
  | nil => simp [setUpload]
  | cons d rest ih =>
    unfold setUpload
    by_cases hd : d.1 == uid
    · rw [if_pos hd]
      simp [List.find?_cons]
    · rw [if_neg hd]
      rw [List.find?_cons_of_neg _ (by simpa using hd)]
      exact ih

/-- Looking up a freshly set upload directory returns the new state. -/
theorem lookupUpload_setUpload (js : List String)
    (dirs : List (String × UploadState)) (uid : String) (ud : UploadState)
    (c : Option (xlMetaV1 × List String)) :
    lookupUpload ⟨js, setUpload dirs uid ud, c⟩ uid = some ud := by
  unfold lookupUpload
  rw [find_setUpload]
  rfl

/-- Successful validation rebuilds `parts[]` with exactly the client part
numbers, in client order. -/
theorem validateParts_numbers (cur : xlMetaV1) (parts : List completePart)
    (ps : List objectPartInfo) (sz : Int)
    (h : validateParts cur parts = .ok (ps, sz)) :
    ps.map (·.number) = parts.map (·.PartNumber) := by
  induction parts generalizing ps sz with
  | nil =>
    simp only [validateParts, Except.ok.injEq, Prod.mk.injEq] at h
    rw [← h.1]
    rfl
  | cons p rest ih =>
    unfold validateParts at h
    cases hidx : cur.ObjectPartIndex p.PartNumber with
    | none => rw [hidx] at h; exact absurd h (by simp)
    | some idx =>
      rw [hidx] at h
      simp only at h
      by_cases hetag : (cur.parts.getD idx default).etag ≠ p.ETag
      · rw [if_pos hetag] at h
        exact absurd h (by simp)
      · rw [if_neg hetag] at h
        by_cases hsmall : ¬ rest.isEmpty = true
            ∧ ¬ isMinAllowedPartSize (cur.parts.getD idx default).size = true
        · rw [if_pos hsmall] at h
          exact absurd h (by simp)
        · rw [if_neg hsmall] at h
          cases hv : validateParts cur rest with
          | error e => rw [hv] at h; exact absurd h (by simp)
          | ok pr =>
            obtain ⟨ps', sz'⟩ := pr
            rw [hv] at h
            simp only [Except.ok.injEq, Prod.mk.injEq] at h
            rw [← h.1]
            simp only [List.map_cons]
            rw [ih ps' sz' hv]

/-- The tail never touches the committed object. -/
theorem uploadsTail_committed (st : MpartObjState) (uid : String) (rf : Bool) :
    ((uploadsTail st uid rf).1).committed = st.committed := by
  simp only [uploadsTail]
  repeat' split
  all_goals rfl

/-- Shape of a successful `putObjectPart`: the upload existed, the returned
tag is the streamed digest, and the new state replaces the upload's
directory with the part file added and the metadata updated through
`AddObjectPart`. -/
theorem putObjectPart_ok_shape (env : Env) (st : MpartObjState)
    (b o uid : String) (partID : Nat) (size : Int) (data : List Nat)
    (md5x tag : String) (st' : MpartObjState)
    (h : putObjectPart env st b o uid partID size data md5x = (.ok tag, st')) :
    ∃ ud, lookupUpload st uid = some ud ∧ tag = md5HexDigest data ∧
      st' = ⟨st.uploadsJSON,
             setUpload st.uploadDirs uid
               ⟨ud.xlMeta.AddObjectPart partID ("object" ++ toString partID)
                  (md5HexDigest data) size,
                insertFile ("object" ++ toString partID) ud.partFiles⟩,
             st.committed⟩ := by
  simp only [putObjectPart] at h
  repeat' split at h
  all_goals have hfst : _ = Except.ok tag := congrArg Prod.fst h
  all_goals injection hfst
  rename_i hfst2
  refine ⟨_, by assumption, hfst2.symm, ?_⟩
  exact (congrArg Prod.snd h).symm

/-- Shape of a successful `CompleteMultipartUpload`: the upload existed,
the composite MD5 and the validation loop succeeded, and the final state
and events are the commit of the rebuilt metadata followed by the
registry tail. -/
theorem complete_ok_shape (env : Env) (st : MpartObjState) (b o uid : String)
    (parts : List completePart) (now : Nat) (rf : Bool) (etagStr : String)
    (st' : MpartObjState) (ev : List StorageEvent)
    (h : CompleteMultipartUpload env st b o uid parts now rf = (.ok etagStr, st', ev)) :
    ∃ ud ps sz,
      lookupUpload st uid = some ud ∧
      completeMultipartMD5 parts = .ok etagStr ∧
      validateParts ud.xlMeta parts = .ok (ps, sz) ∧
      st' = (uploadsTail (completeStagedState st uid ud ps sz now etagStr) uid rf).1 ∧
      ev = (completeTrimmed ud (completeXLMeta ud ps sz now etagStr)).map
              (fun cp => StorageEvent.deletePartFile cp.name)
          ++ [StorageEvent.commitRename]
          ++ (uploadsTail (completeStagedState st uid ud ps sz now etagStr) uid rf).2 := by
  simp only [CompleteMultipartUpload] at h
  repeat' split at h
  all_goals have hfst : _ = Except.ok etagStr := congrArg Prod.fst h
  all_goals injection hfst
  rename_i hfst2
  subst hfst2
  refine ⟨_, _, _, by assumption, by assumption, by assumption, ?_, ?_⟩
  · exact (congrArg (fun x => x.2.1) h).symm
  · exact (congrArg (fun x => x.2.2) h).symm

/-- C3 counterexample: a successful `CompleteMultipartUpload` whose client
part order is `[2, 1]` commits an `xl.json` whose `parts[]` is `[2, 1]` —
not sorted ascending — because src line 368-394 sets `parts` to exactly
the client order. -/
theorem complete_parts_unsorted_cex :
    (CompleteMultipartUpload env0 stA "b" "o" "u" [⟨2, etag0⟩, ⟨1, etag0⟩] 7 false).1
        = .ok "5873dd45edd01f09c1ef2e7819369e8e-2"
    ∧ ((CompleteMultipartUpload env0 stA "b" "o" "u" [⟨2, etag0⟩, ⟨1, etag0⟩] 7
          false).2.1.committed.map (fun pr => pr.1.parts.map (·.number))) = some [2, 1]
    ∧ ¬ List.Pairwise (· ≤ ·) ([2, 1] : List Nat) := by
  refine ⟨by decide, by decide, ?_⟩
  simp [List.pairwise_cons]

/-- C3 (amended): a successful `putObjectPart` preserves the
sorted-and-duplicate-free invariant of the upload's `parts[]` (the
append-or-replace keeps strict ascending numbers); a successful
`CompleteMultipartUpload` instead writes `parts[]` as exactly the client
parts in client order, so its record is sorted and duplicate-free only when
the client's part numbers are. -/
theorem parts_sorted_invariant :
    (∀ (env : Env) (st : MpartObjState) (b o uid : String) (partID : Nat)
        (size : Int) (data : List Nat) (md5x tag : String) (st' : MpartObjState)
        (ud : UploadState),
        lookupUpload st uid = some ud →
        List.Pairwise (fun a b => a.number < b.number) ud.xlMeta.parts →
        putObjectPart env st b o uid partID size data md5x = (.ok tag, st') →
        ∀ ud', lookupUpload st' uid = some ud' →
          List.Pairwise (fun a b => a.number < b.number) ud'.xlMeta.parts)
    ∧ (∀ (env : Env) (st : MpartObjState) (b o uid : String)
        (parts : List completePart) (now : Nat) (rf : Bool) (etagStr : String)
        (st' : MpartObjState) (ev : List StorageEvent) (m : xlMetaV1)
        (fs : List String),
        CompleteMultipartUpload env st b o uid parts now rf = (.ok etagStr, st', ev) →
        st'.committed = some (m, fs) →
        m.parts.map (·.number) = parts.map (·.PartNumber)) := by
  constructor
  · intro env st b o uid partID size data md5x tag st' ud hud hpw hput ud' hud'
    obtain ⟨udx, heq, -, hst⟩ :=
      putObjectPart_ok_shape env st b o uid partID size data md5x tag st' hput
    rw [hud] at heq
    obtain rfl := (Option.some.injEq _ _).mp heq
    subst hst
    rw [lookupUpload_setUpload] at hud'
    obtain rfl := (Option.some.injEq _ _).mp hud'
    exact insertPart_pairwise _ _ hpw
  · intro env st b o uid parts now rf etagStr st' ev m fs hc hcm
    obtain ⟨ud, ps, sz, -, -, hval, hst, -⟩ :=
      complete_ok_shape env st b o uid parts now rf etagStr st' ev hc
    subst hst
    rw [uploadsTail_committed] at hcm
    simp only [completeStagedState, completeXLMeta, Option.some.injEq,
      Prod.mk.injEq] at hcm
    obtain ⟨hm, -⟩ := hcm
    rw [← hm]
    exact validateParts_numbers _ _ _ _ hval

/-- C3 witness: the putObjectPart conjunct on a fresh upload receiving its
first part keeps `parts[]` strictly ascending. -/
theorem parts_sorted_invariant_w :
    List.Pairwise (fun a b => a.number < b.number)
      ((⟨⟨⟨0, 0, 1⟩, [], [⟨1, "object1", etag0, 0⟩]⟩, ["object1"]⟩ :
          UploadState).xlMeta.parts) :=
  parts_sorted_invariant.1 env0 stB "b" "o" "u" 1 0 [] "" etag0
    ⟨["u"], [("u", ⟨⟨⟨0, 0, 1⟩, [], [⟨1, "object1", etag0, 0⟩]⟩, ["object1"]⟩)], none⟩
    ⟨⟨⟨0, 0, 1⟩, [], []⟩, []⟩ (by decide) List.Pairwise.nil (by decide)
    ⟨⟨⟨0, 0, 1⟩, [], [⟨1, "object1", etag0, 0⟩]⟩, ["object1"]⟩ (by decide)

/-! ### Listing lemmas shared by claims C4 and C8 -/

/-- The successfully stat'ed modTime is always the model's zero. -/
theorem statPart_ok_val (ud : UploadState) (n : String) (v : Nat)
    (h : statPart ud n = .ok v) : v = 0 := by
  unfold statPart at h
  split at h
  · exact ((Except.ok.injEq _ _).mp h).symm
  · exact absurd h (by simp)

/-- A file just written is in the directory listing. -/
theorem mem_insertFile_self (n : String) (fs : List String) :
    n ∈ insertFile n fs := by
  unfold insertFile
  split
  · next hc => exact List.mem_of_elem_eq_true hc
  · simp

/-- Writing one file keeps the others listed. -/
theorem mem_insertFile_of_mem (f n : String) (fs : List String)
    (h : f ∈ fs) : f ∈ insertFile n fs := by
  unfold insertFile
  split
  · exact h
  · exact List.mem_append_left _ h

/-- A sorted insert grows the list by at most one entry. -/
theorem insertPart_length_le (p : objectPartInfo) :
    ∀ (l : List objectPartInfo), (insertPart p l).length ≤ l.length + 1 := by
  intro l
  induction l with
  | nil => simp [insertPart]
  | cons d rest ih =>
    unfold insertPart
    split
    · simp
    · split
      · simp
      · simpa using Nat.succ_le_succ ih

/-- A sorted insert never yields the empty list. -/
theorem insertPart_ne_nil (p : objectPartInfo) (l : List objectPartInfo) :
    insertPart p l ≠ [] := by
  cases l with
  | nil => simp [insertPart]
  | cons d rest =>
    unfold insertPart
    split
    · simp
    · split
      · simp
      · simp

/-- When every candidate's file is present and the count covers the whole
candidate list, the listing loop emits exactly one entry per candidate. -/
theorem listLoop_all (ud : UploadState) :
    ∀ (l : List objectPartInfo) (count : Int),
      (∀ p ∈ l, p.name ∈ ud.partFiles) → (l.length : Int) ≤ count →
      listLoop ud count l = .ok (l.map entryOf) := by
  intro l
  induction l with
  | nil =>
    intro count _ _
    rfl
  | cons p rest ih =>
    intro count hf hc
    unfold listLoop
    have hstat : statPart ud p.name = .ok 0 := by
      unfold statPart
      rw [if_pos (List.elem_eq_true_of_mem (hf p (List.mem_cons_self p rest)))]
    rw [hstat]
    simp only
    by_cases h1 : count - 1 = 0
    · rw [if_pos h1]
      have hrest : rest = [] := by
        have hlen : (rest.length : Int) + 1 ≤ count := by
          simpa [Nat.add_comm] using hc
        have : (rest.length : Int) ≤ 0 := by omega
        have : rest.length = 0 := by exact_mod_cast Int.le_antisymm this (by positivity)
        exact List.length_eq_zero.mp this
      subst hrest
      rfl
    · rw [if_neg h1]
      have hc' : (rest.length : Int) ≤ count - 1 := by
        have : (rest.length : Int) + 1 ≤ count := by
          simpa [Nat.add_comm] using hc
        omega
      rw [ih (count - 1) (fun q hq => hf q (List.mem_cons_of_mem p hq)) hc']
      rfl

/-- A successful listing loop emits a prefix of the candidates' entries. -/
theorem listLoop_prefix (ud : UploadState) :
    ∀ (l : List objectPartInfo) (count : Int) (es : List partInfo),
      listLoop ud count l = .ok es → ∃ k, es = (l.take k).map entryOf := by
  intro l
  induction l with
  | nil =>
    intro count es h
    refine ⟨0, ?_⟩
    simpa [listLoop] using ((Except.ok.injEq _ _).mp h).symm
  | cons p rest ih =>
    intro count es h
    unfold listLoop at h
    cases hstat : statPart ud p.name with
    | error e =>
      rw [hstat] at h
      exact absurd h (by simp)
    | ok v =>
      obtain rfl := statPart_ok_val ud p.name v hstat
      rw [hstat] at h
      simp only at h
      by_cases h1 : count - 1 = 0
      · rw [if_pos h1] at h
        refine ⟨1, ?_⟩
        simpa [entryOf] using ((Except.ok.injEq _ _).mp h).symm
      · rw [if_neg h1] at h
        cases hrec : listLoop ud (count - 1) rest with
        | error e =>
          rw [hrec] at h
          exact absurd h (by simp)
        | ok es' =>
          rw [hrec] at h
          obtain ⟨k, hk⟩ := ih (count - 1) es' hrec
          refine ⟨k + 1, ?_⟩
          rw [← ((Except.ok.injEq _ _).mp h), hk]
          rfl

/-- A successful listing loop over a non-empty candidate list is
non-empty. -/
theorem listLoop_ne_nil (ud : UploadState) (count : Int)
    (p : objectPartInfo) (rest : List objectPartInfo) (es : List partInfo)
    (h : listLoop ud count (p :: rest) = .ok es) : es ≠ [] := by
  unfold listLoop at h
  cases hstat : statPart ud p.name with
  | error e =>
    rw [hstat] at h
    exact absurd h (by simp)
  | ok v =>
    rw [hstat] at h
    simp only at h
    by_cases h1 : count - 1 = 0
    · rw [if_pos h1] at h
      rw [← ((Except.ok.injEq _ _).mp h)]
      simp
    · rw [if_neg h1] at h
      cases hrec : listLoop ud (count - 1) rest with
      | error e =>
        rw [hrec] at h
        exact absurd h (by simp)
      | ok es' =>
        rw [hrec] at h
        rw [← ((Except.ok.injEq _ _).mp h)]
        simp

/-- A found part index points at a part with that number. -/
theorem objectPartIndexAux_some_mem (n : Nat) :
    ∀ (l : List objectPartInfo) (idx : Nat),
      objectPartIndexAux n l = some idx → ∃ q ∈ l, q.number = n := by
  intro l
  induction l with
  | nil =>
    intro idx h
    exact absurd h (by simp [objectPartIndexAux])
  | cons d rest ih =>
    intro idx h
    unfold objectPartIndexAux at h
    by_cases hd : d.number == n
    · exact ⟨d, List.mem_cons_self d rest, by simpa using hd⟩
    · rw [if_neg hd] at h
      obtain ⟨idx', hidx', -⟩ := Option.map_eq_some'.mp h
      obtain ⟨q, hq, hqn⟩ := ih idx' hidx'
      exact ⟨q, List.mem_cons_of_mem d hq, hqn⟩

/-- In a sorted list, everything after the marker's position has a number
above the marker. -/
theorem drop_after_marker_gt (marker : Nat) :
    ∀ (l : List objectPartInfo) (idx : Nat),
      List.Pairwise (fun a b => a.number < b.number) l →
      objectPartIndexAux marker l = some idx →
      ∀ p ∈ l.drop (idx + 1), marker < p.number := by
  intro l
  induction l with
  | nil =>
    intro idx _ h
    exact absurd h (by simp [objectPartIndexAux])
  | cons d rest ih =>
    intro idx hpw h
    rw [List.pairwise_cons] at hpw
    unfold objectPartIndexAux at h
    by_cases hd : d.number == marker
    · rw [if_pos hd] at h
      obtain rfl := ((Option.some.injEq _ _).mp h).symm
      intro p hp
      have hdm : d.number = marker := by simpa using hd
      rw [← hdm]
      exact hpw.1 p (by simpa using hp)
    · rw [if_neg hd] at h
      obtain ⟨idx', hidx', hplus⟩ := Option.map_eq_some'.mp h
      intro p hp
      rw [← hplus] at hp
      exact ih idx' hpw.2 hidx' p (by simpa using hp)

/-- In a sorted list, a member with number above a found marker survives
the skip. -/
theorem mem_drop_after_marker (marker : Nat) :
    ∀ (l : List objectPartInfo) (idx : Nat) (p : objectPartInfo),
      List.Pairwise (fun a b => a.number < b.number) l →
      objectPartIndexAux marker l = some idx →
      p ∈ l → marker < p.number → p ∈ l.drop (idx + 1) := by
  intro l
  induction l with
  | nil =>
    intro idx p _ h
    exact absurd h (by simp [objectPartIndexAux])
  | cons d rest ih =>
    intro idx p hpw h hp hgt
    rw [List.pairwise_cons] at hpw
    unfold objectPartIndexAux at h
    by_cases hd : d.number == marker
    · rw [if_pos hd] at h
      obtain rfl := ((Option.some.injEq _ _).mp h).symm
      have hdm : d.number = marker := by simpa using hd
      rcases List.mem_cons.mp hp with hp' | hp'
      · rw [hp'] at hgt
        rw [hdm] at hgt
        exact absurd hgt (Nat.lt_irrefl marker)
      · simpa using hp'
    · rw [if_neg hd] at h
      obtain ⟨idx', hidx', hplus⟩ := Option.map_eq_some'.mp h
      obtain ⟨q, hq, hqn⟩ := objectPartIndexAux_some_mem marker rest idx' hidx'
      have hdq : d.number < marker := hqn ▸ hpw.1 q hq
      rcases List.mem_cons.mp hp with hp' | hp'
      · rw [hp'] at hgt
        exact absurd (Nat.lt_trans hdq hgt) (Nat.lt_irrefl _)
      · rw [← hplus]
        simpa using ih idx' p hpw.2 hidx' hp' hgt

/-- In a sorted candidate list, filtering the emitted entries by a member's
number yields exactly that member's entry. -/
theorem map_entry_filter_unique :
    ∀ (l : List objectPartInfo) (p0 : objectPartInfo),
      List.Pairwise (fun a b => a.number < b.number) l →
      p0 ∈ l →
      (l.map entryOf).filter (fun e => e.PartNumber == p0.number)
        = [entryOf p0] := by
  intro l
  induction l with
  | nil =>
    intro p0 _ hp
    exact absurd hp (by simp)
  | cons d rest ih =>
    intro p0 hpw hp
    rw [List.pairwise_cons] at hpw
    rcases List.mem_cons.mp hp with hp' | hp'
    · subst hp'
      simp only [List.map_cons, List.filter_cons]
      rw [if_pos (by simp [entryOf])]
      congr 1
      rw [List.filter_eq_nil_iff]
      intro e he
      obtain ⟨q, hq, hqe⟩ := List.mem_map.mp he
      rw [← hqe]
      have : p0.number < q.number := hpw.1 q hq
      simp [entryOf]
      omega
    · simp only [List.map_cons, List.filter_cons]
      rw [if_neg ?_]
      · exact ih p0 hpw.2 hp'
      · have : d.number < p0.number := hpw.1 p0 hp'
        simp [entryOf]
        omega

/-- Full-listing shape of `listObjectParts`: when the upload exists, the
candidates are non-empty, `maxParts` needs no clamp and covers all
candidates, and every candidate's file is present, the listing returns all
candidate entries untruncated. -/
theorem listObjectParts_all (env : Env) (st : MpartObjState) (b o uid : String)
    (marker : Nat) (maxP : Int) (ud : UploadState)
    (h1 : env.isValidBucketName b = true) (h2 : env.isBucketExist b = true)
    (h3 : env.isValidObjectName o = true)
    (hud : lookupUpload st uid = some ud)
    (hne : ud.xlMeta.parts.length ≠ 0) (hmax0 : maxP ≠ 0)
    (hcap : ¬ maxPartsList < maxP)
    (hfiles : ∀ p ∈ listedCandidates ud.xlMeta marker, p.name ∈ ud.partFiles)
    (hcount : ((listedCandidates ud.xlMeta marker).length : Int) ≤ maxP) :
    listObjectParts env st b o uid marker maxP
      = .ok ⟨b, o, uid, maxP, (listedCandidates ud.xlMeta marker).map entryOf,
             false, 0⟩ := by
  simp only [listObjectParts]
  rw [h1, h2, h3, hud]
  simp only [not_true_eq_false, Bool.false_eq_true, if_false]
  rw [if_neg (by push_neg; exact ⟨hne, hmax0⟩)]
  rw [if_neg hcap]
  rw [listLoop_all ud (listedCandidates ud.xlMeta marker) maxP hfiles hcount]
  simp only [List.length_map]
  rw [if_neg (Nat.lt_irrefl _)]

/-- The candidate list is a subset of the stored parts. -/
theorem listedCandidates_subset (m : xlMetaV1) (marker : Nat) :
    ∀ p ∈ listedCandidates m marker, p ∈ m.parts := by
  unfold listedCandidates
  cases m.ObjectPartIndex marker with
  | none => exact fun p hp => hp
  | some idx => exact fun p hp => List.drop_subset _ _ hp

/-- The candidate list is no longer than the stored parts. -/
theorem listedCandidates_length_le (m : xlMetaV1) (marker : Nat) :
    (listedCandidates m marker).length ≤ m.parts.length := by
  unfold listedCandidates
  cases m.ObjectPartIndex marker with
  | none => exact Nat.le_refl _
  | some idx =>
    rw [List.length_drop]
    exact Nat.sub_le _ _

/-- The candidate list inherits the sorted-unique invariant. -/
theorem listedCandidates_pairwise (m : xlMetaV1) (marker : Nat)
    (h : List.Pairwise (fun a b => a.number < b.number) m.parts) :
    List.Pairwise (fun a b => a.number < b.number) (listedCandidates m marker) := by
  unfold listedCandidates
  cases m.ObjectPartIndex marker with
  | none => exact h
  | some idx => exact h.sublist (List.drop_sublist _ _)

/-- A stored part with number above the marker is a candidate. -/
theorem mem_listedCandidates (m : xlMetaV1) (marker : Nat) (p : objectPartInfo)
    (hpw : List.Pairwise (fun a b => a.number < b.number) m.parts)
    (hp : p ∈ m.parts) (hgt : marker < p.number) :
    p ∈ listedCandidates m marker := by
  unfold listedCandidates
  cases hidx : m.ObjectPartIndex marker with
  | none => exact hp
  | some idx => exact mem_drop_after_marker marker m.parts idx p hpw hidx hp hgt

/-! ### Claim C4: a put part shows up in the listing -/

/-- C4 counterexample: `putObjectPart` with `size = 5` but only three bytes
of stream succeeds and records `Size = 5` — the `size` argument, not the
number of bytes actually read — as the subsequent listing shows. -/
theorem putObjectPart_size_argument_cex :
    (putObjectPart env0 stB "b" "o" "u" 1 5 [65, 66, 67] "").1
        = .ok "902fbdd2b1df0c4f70b4a5d23525e932"
    ∧ (listObjectParts env0 (putObjectPart env0 stB "b" "o" "u" 1 5 [65, 66, 67] "").2
          "b" "o" "u" 0 1000).map (fun r => r.Parts)
        = .ok [⟨1, "902fbdd2b1df0c4f70b4a5d23525e932", 0, 5⟩]
    ∧ ([65, 66, 67] : List Nat).length ≠ 5 :=
  ⟨by decide, by decide, by decide⟩

/-- C4 (amended): after a successful `putObjectPart` of part `n` (given
the upload existed with a sorted record and its part files present), a
`listObjectParts` with marker below `n` and `maxParts` covering all parts
without clamping succeeds and lists exactly one entry for part `n`, whose
etag is the lowercase hex MD5 of the streamed bytes and whose size is the
`size` argument of the put (not the byte count of the stream). -/
theorem putThenList_shows_part (env : Env) (st : MpartObjState)
    (b o uid : String) (partID : Nat) (size : Int) (data : List Nat)
    (tag : String) (st' : MpartObjState) (ud : UploadState)
    (marker : Nat) (maxP : Int)
    (h1 : env.isValidBucketName b = true) (h2 : env.isBucketExist b = true)
    (h3 : env.isValidObjectName o = true)
    (hud : lookupUpload st uid = some ud)
    (hpw : List.Pairwise (fun a b => a.number < b.number) ud.xlMeta.parts)
    (hfiles : ∀ p ∈ ud.xlMeta.parts, p.name ∈ ud.partFiles)
    (hput : putObjectPart env st b o uid partID size data "" = (.ok tag, st'))
    (hmark : marker < partID)
    (hcount : (ud.xlMeta.parts.length : Int) + 1 ≤ maxP)
    (hcap : ¬ maxPartsList < maxP) :
    ∃ r, listObjectParts env st' b o uid marker maxP = .ok r ∧
      r.Parts.filter (fun e => e.PartNumber == partID)
        = [⟨partID, md5HexDigest data, 0, size⟩] := by
  obtain ⟨udx, heq, -, hst⟩ :=
    putObjectPart_ok_shape env st b o uid partID size data "" tag st' hput
  rw [hud] at heq
  obtain rfl := (Option.some.injEq _ _).mp heq
  subst hst
  have hpw' : List.Pairwise (fun a b => a.number < b.number)
      (ud.xlMeta.AddObjectPart partID ("object" ++ toString partID)
        (md5HexDigest data) size).parts :=
    insertPart_pairwise _ _ hpw
  have hmem : (⟨partID, "object" ++ toString partID, md5HexDigest data, size⟩ :
      objectPartInfo) ∈ (ud.xlMeta.AddObjectPart partID
        ("object" ++ toString partID) (md5HexDigest data) size).parts :=
    insertPart_self _ _
  have hall := listObjectParts_all env
    ⟨st.uploadsJSON,
      setUpload st.uploadDirs uid
        ⟨ud.xlMeta.AddObjectPart partID ("object" ++ toString partID)
            (md5HexDigest data) size,
          insertFile ("object" ++ toString partID) ud.partFiles⟩,
      st.committed⟩
    b o uid marker maxP
    ⟨ud.xlMeta.AddObjectPart partID ("object" ++ toString partID)
        (md5HexDigest data) size,
      insertFile ("object" ++ toString partID) ud.partFiles⟩
    h1 h2 h3 (lookupUpload_setUpload _ _ _ _ _)
    (fun hz => insertPart_ne_nil _ _ (List.length_eq_zero.mp hz))
    (by
      intro hz
      rw [hz] at hcount
      have := insertPart_length_le
        (⟨partID, "object" ++ toString partID, md5HexDigest data, size⟩ :
          objectPartInfo) ud.xlMeta.parts
      omega)
    hcap
    (by
      intro p hp
      rcases mem_insertPart _ p _ (listedCandidates_subset _ _ p hp) with hp' | hp'
      · rw [hp']
        exact mem_insertFile_self _ _
      · exact mem_insertFile_of_mem _ _ _ (hfiles p hp'))
    (by
      dsimp only
      have hAP : (ud.xlMeta.AddObjectPart partID ("object" ++ toString partID)
          (md5HexDigest data) size).parts
          = insertPart
              (⟨partID, "object" ++ toString partID, md5HexDigest data, size⟩ :
                objectPartInfo) ud.xlMeta.parts := rfl
      have hle := listedCandidates_length_le
        (ud.xlMeta.AddObjectPart partID ("object" ++ toString partID)
          (md5HexDigest data) size) marker
      rw [hAP] at hle
      have hins := insertPart_length_le
        (⟨partID, "object" ++ toString partID, md5HexDigest data, size⟩ :
          objectPartInfo) ud.xlMeta.parts
      have hle2 := Nat.le_trans hle hins
      omega)
  refine ⟨_, hall, ?_⟩
  exact map_entry_filter_unique _
    (⟨partID, "object" ++ toString partID, md5HexDigest data, size⟩ :
      objectPartInfo)
    (listedCandidates_pairwise _ _ hpw')
    (mem_listedCandidates _ _ _ hpw' hmem hmark)

/-- C4 witness: putting part 2 with `size = 7` and one streamed byte, then
listing from marker 1, yields exactly one entry for part 2 with the MD5 of
the byte and size 7. -/
theorem putThenList_shows_part_w :
    ∃ r, listObjectParts env0
        ⟨["u"], [("u", ⟨⟨⟨0, 0, 1⟩, [],
            [⟨2, "object2", "7fc56270e7a70fa81a5935b72eacbe29", 7⟩]⟩,
          ["object2"]⟩)], none⟩
        "b" "o" "u" 1 5 = .ok r ∧
      r.Parts.filter (fun e => e.PartNumber == 2)
        = [⟨2, md5HexDigest [65], 0, 7⟩] :=
  putThenList_shows_part env0 stB "b" "o" "u" 2 7 [65]
    "7fc56270e7a70fa81a5935b72eacbe29"
    ⟨["u"], [("u", ⟨⟨⟨0, 0, 1⟩, [],
        [⟨2, "object2", "7fc56270e7a70fa81a5935b72eacbe29", 7⟩]⟩,
      ["object2"]⟩)], none⟩
    ⟨⟨⟨0, 0, 1⟩, [], []⟩, []⟩ 1 5
    (by decide) (by decide) (by decide) (by decide) List.Pairwise.nil
    (by simp) (by decide) (by decide) (by decide) (by decide)

/-! ### Claim C8: the `listObjectParts` contract -/

/-- Right after an initiate, the listing is empty and untruncated. -/
theorem listParts_after_initiate (env : Env) (st : MpartObjState) (b o : String)
    (m : List (String × String)) (uid : String) (now : Nat) (marker : Nat)
    (maxP : Int) (st' : MpartObjState)
    (h1 : env.isValidBucketName b = true) (h2 : env.isBucketExist b = true)
    (h3 : env.isValidObjectName o = true)
    (hn : newMultipartUpload env st b o m uid now = (.ok uid, st')) :
    listObjectParts env st' b o uid marker maxP
      = .ok ⟨b, o, uid, maxP, [], false, 0⟩ := by
  unfold newMultipartUpload at hn
  rw [h1, h2, h3] at hn
  simp only [not_true_eq_false, Bool.false_eq_true, if_false] at hn
  have hst := congrArg Prod.snd hn
  simp only at hst
  simp only [listObjectParts]
  rw [h1, h2, h3]
  simp only [not_true_eq_false, Bool.false_eq_true, if_false]
  rw [← hst]
  rw [lookupUpload_setUpload]
  simp

/-- The clamp to `maxPartsList` changes nothing but the echoed
`MaxParts`. -/
theorem listParts_clamp (env : Env) (st : MpartObjState) (b o uid : String)
    (marker : Nat) (maxP : Int) (h : maxPartsList < maxP) :
    listObjectParts env st b o uid marker maxP
      = (listObjectParts env st b o uid marker maxPartsList).map
          (fun r => { r with MaxParts := maxP }) := by
  have hm0 : ¬ (maxP = 0) := by
    have h1000 : (1000 : Int) < maxP := h
    omega
  simp only [listObjectParts]
  by_cases h1 : env.isValidBucketName b = true
  case neg => simp [h1, Except.map]
  rw [h1]
  by_cases h2 : env.isBucketExist b = true
  case neg => simp [h2, Except.map]
  rw [h2]
  by_cases h3 : env.isValidObjectName o = true
  case neg => simp [h3, Except.map]
  rw [h3]
  simp only [not_true_eq_false, Bool.false_eq_true, if_false]
  cases hud : lookupUpload st uid with
  | none => rfl
  | some ud =>
    dsimp only
    by_cases hz : ud.xlMeta.parts.length = 0
    · rw [if_pos (Or.inl hz), if_pos (Or.inl hz)]
      rfl
    · have hcondL : ¬ (ud.xlMeta.parts.length = 0 ∨ maxP = 0) := by
        push_neg
        exact ⟨hz, hm0⟩
      have hcondR : ¬ (ud.xlMeta.parts.length = 0 ∨ maxPartsList = 0) := by
        push_neg
        exact ⟨hz, by norm_num [maxPartsList]⟩
      rw [if_neg hcondL, if_neg hcondR]
      have hclampL : (if maxP > maxPartsList then maxPartsList else maxP)
          = maxPartsList := if_pos h
      have hclampR : (if maxPartsList > maxPartsList then maxPartsList
          else maxPartsList) = maxPartsList := if_neg (lt_irrefl maxPartsList)
      rw [hclampL, hclampR]
      cases hloop : listLoop ud maxPartsList (listedCandidates ud.xlMeta marker) with
      | error e => rfl
      | ok es =>
        dsimp only
        by_cases htr : es.length < (listedCandidates ud.xlMeta marker).length
        · rw [if_pos htr, if_pos htr]
          rfl
        · rw [if_neg htr, if_neg htr]
          rfl

/-- With the marker present among the stored (sorted) part numbers, every
listed entry's number is above the marker. -/
theorem listParts_skip_marker (env : Env) (st : MpartObjState) (b o uid : String)
    (marker : Nat) (maxP : Int) (r : ListPartsInfo) (ud : UploadState) (idx : Nat)
    (h1 : env.isValidBucketName b = true) (h2 : env.isBucketExist b = true)
    (h3 : env.isValidObjectName o = true)
    (hud : lookupUpload st uid = some ud)
    (hpw : List.Pairwise (fun a b => a.number < b.number) ud.xlMeta.parts)
    (hidx : ud.xlMeta.ObjectPartIndex marker = some idx)
    (h : listObjectParts env st b o uid marker maxP = .ok r) :
    ∀ e ∈ r.Parts, marker < e.PartNumber := by
  simp only [listObjectParts] at h
  rw [h1, h2, h3, hud] at h
  simp only [not_true_eq_false, Bool.false_eq_true, if_false] at h
  by_cases hz : ud.xlMeta.parts.length = 0 ∨ maxP = 0
  · rw [if_pos hz] at h
    rw [← (Except.ok.injEq _ _).mp h]
    intro e he
    simp at he
  · rw [if_neg hz] at h
    cases hloop : listLoop ud (if maxP > maxPartsList then maxPartsList else maxP)
        (listedCandidates ud.xlMeta marker) with
    | error e' =>
      rw [hloop] at h
      exact absurd h (by simp)
    | ok es =>
      rw [hloop] at h
      dsimp only at h
      obtain ⟨k, hk⟩ := listLoop_prefix ud _ _ _ hloop
      have hparts : r.Parts = es := by
        by_cases htr : es.length < (listedCandidates ud.xlMeta marker).length
        · rw [if_pos htr] at h
          exact (congrArg ListPartsInfo.Parts ((Except.ok.injEq _ _).mp h)).symm
        · rw [if_neg htr] at h
          exact (congrArg ListPartsInfo.Parts ((Except.ok.injEq _ _).mp h)).symm
      intro e he
      rw [hparts, hk] at he
      obtain ⟨p, hp, hpe⟩ := List.mem_map.mp he
      have hpmem : p ∈ listedCandidates ud.xlMeta marker := List.take_subset _ _ hp
      have hcand : p ∈ ud.xlMeta.parts.drop (idx + 1) := by
        unfold listedCandidates at hpmem
        rw [hidx] at hpmem
        exact hpmem
      have hgt := drop_after_marker_gt marker ud.xlMeta.parts idx hpw hidx p hcand
      rw [← hpe]
      exact hgt

/-- Truncation is set exactly when candidates remain beyond the listed
entries, and then the next marker is the last listed entry's number. -/
theorem listParts_truncation (env : Env) (st : MpartObjState) (b o uid : String)
    (marker : Nat) (maxP : Int) (r : ListPartsInfo) (ud : UploadState)
    (h1 : env.isValidBucketName b = true) (h2 : env.isBucketExist b = true)
    (h3 : env.isValidObjectName o = true)
    (hud : lookupUpload st uid = some ud) (hm0 : maxP ≠ 0)
    (h : listObjectParts env st b o uid marker maxP = .ok r) :
    (r.IsTruncated = true
        ↔ r.Parts.length < (listedCandidates ud.xlMeta marker).length)
    ∧ (r.IsTruncated = true →
        (r.Parts.getLast?).map (fun e => e.PartNumber)
          = some r.NextPartNumberMarker) := by
  simp only [listObjectParts] at h
  rw [h1, h2, h3, hud] at h
  simp only [not_true_eq_false, Bool.false_eq_true, if_false] at h
  by_cases hz : ud.xlMeta.parts.length = 0 ∨ maxP = 0
  · have hzlen : ud.xlMeta.parts.length = 0 := by
      rcases hz with hz' | hz'
      · exact hz'
      · exact absurd hz' hm0
    rw [if_pos hz] at h
    have hlc : listedCandidates ud.xlMeta marker = [] := by
      have hpnil : ud.xlMeta.parts = [] := List.length_eq_zero.mp hzlen
      unfold listedCandidates
      cases ud.xlMeta.ObjectPartIndex marker with
      | none => exact hpnil
      | some i =>
        rw [hpnil]
        simp
    rw [← (Except.ok.injEq _ _).mp h, hlc]
    refine ⟨⟨fun hf => by simp at hf, fun hlen => by simp at hlen⟩,
      fun hf => by simp at hf⟩
  · rw [if_neg hz] at h
    cases hloop : listLoop ud (if maxP > maxPartsList then maxPartsList else maxP)
        (listedCandidates ud.xlMeta marker) with
    | error e' =>
      rw [hloop] at h
      exact absurd h (by simp)
    | ok es =>
      rw [hloop] at h
      dsimp only at h
      by_cases htr : es.length < (listedCandidates ud.xlMeta marker).length
      · rw [if_pos htr] at h
        have hcne : listedCandidates ud.xlMeta marker ≠ [] := by
          intro hnil
          rw [hnil] at htr
          simp at htr
        obtain ⟨p, rest, hpr⟩ := List.exists_cons_of_ne_nil hcne
        have hesne : es ≠ [] := by
          apply listLoop_ne_nil ud (if maxP > maxPartsList then maxPartsList else maxP) p rest es
          rw [← hpr]
          exact hloop
        obtain ⟨last, hlast⟩ :=
          Option.isSome_iff_exists.mp (List.getLast?_isSome.mpr hesne)
        rw [← (Except.ok.injEq _ _).mp h]
        refine ⟨⟨fun _ => htr, fun _ => rfl⟩, fun _ => ?_⟩
        show (es.getLast?).map (fun e => e.PartNumber)
          = some (((es.getLast?).map (fun e => e.PartNumber)).getD 0)
        rw [hlast]
        rfl
      · rw [if_neg htr] at h
        rw [← (Except.ok.injEq _ _).mp h]
        refine ⟨⟨fun hf => by simp at hf, fun hlen => absurd hlen htr⟩,
          fun hf => by simp at hf⟩

/-- C8 counterexample: with stored parts 1 and 3 and marker 2 — a marker
that is not a stored part number — `ObjectPartIndex` finds nothing and no
parts are skipped: part 1, whose number is ≤ the marker, is still listed. -/
theorem listObjectParts_marker_skip_cex :
    (listObjectParts env0 st8 "b" "o" "u" 2 10).map
        (fun r => r.Parts.map (fun e => e.PartNumber)) = .ok [1, 3]
    ∧ 1 ≤ 2 :=
  ⟨by decide, by decide⟩

/-- C8 (amended): on an existing upload, (i) immediately after an initiate
the listing is empty with `IsTruncated = false`; (ii) `maxParts` is clamped
to `maxPartsList`, affecting nothing but the echoed `MaxParts`; (iii) parts
with number ≤ `partNumberMarker` are skipped only when the marker itself is
a stored part number — the skip drops everything up to the marker's
position (all of it ≤ the marker for a sorted record), while a marker that
matches no stored part number skips nothing; and (iv) for `maxParts ≠ 0`,
`IsTruncated = true` with `NextPartNumberMarker` equal to the last listed
part's number exactly when candidate parts remain beyond those listed. -/
theorem listObjectParts_spec :
    (∀ (env : Env) (st : MpartObjState) (b o : String)
        (m : List (String × String)) (uid : String) (now marker : Nat)
        (maxP : Int) (st' : MpartObjState),
        env.isValidBucketName b = true → env.isBucketExist b = true →
        env.isValidObjectName o = true →
        newMultipartUpload env st b o m uid now = (.ok uid, st') →
        listObjectParts env st' b o uid marker maxP
          = .ok ⟨b, o, uid, maxP, [], false, 0⟩)
    ∧ (∀ (env : Env) (st : MpartObjState) (b o uid : String) (marker : Nat)
        (maxP : Int), maxPartsList < maxP →
        listObjectParts env st b o uid marker maxP
          = (listObjectParts env st b o uid marker maxPartsList).map
              (fun r => { r with MaxParts := maxP }))
    ∧ (∀ (env : Env) (st : MpartObjState) (b o uid : String) (marker : Nat)
        (maxP : Int) (r : ListPartsInfo) (ud : UploadState) (idx : Nat),
        env.isValidBucketName b = true → env.isBucketExist b = true →
        env.isValidObjectName o = true → lookupUpload st uid = some ud →
        List.Pairwise (fun a b => a.number < b.number) ud.xlMeta.parts →
        ud.xlMeta.ObjectPartIndex marker = some idx →
        listObjectParts env st b o uid marker maxP = .ok r →
        ∀ e ∈ r.Parts, marker < e.PartNumber)
    ∧ (∀ (env : Env) (st : MpartObjState) (b o uid : String) (marker : Nat)
        (maxP : Int) (r : ListPartsInfo) (ud : UploadState),
        env.isValidBucketName b = true → env.isBucketExist b = true →
        env.isValidObjectName o = true → lookupUpload st uid = some ud →
        maxP ≠ 0 →
        listObjectParts env st b o uid marker maxP = .ok r →
        (r.IsTruncated = true
            ↔ r.Parts.length < (listedCandidates ud.xlMeta marker).length)
        ∧ (r.IsTruncated = true →
            (r.Parts.getLast?).map (fun e => e.PartNumber)
              = some r.NextPartNumberMarker)) :=
  ⟨listParts_after_initiate, listParts_clamp, listParts_skip_marker,
   listParts_truncation⟩

/-- C8 witness: the four conjuncts at concrete inputs — a fresh initiate
lists nothing; `maxParts = 2000` behaves as the 1000 cap with the argument
echoed; with marker 1 stored, the single listed part number 2 is above the
marker; with `maxParts = 1` on two stored parts the listing truncates at
part 1. -/
theorem listObjectParts_spec_w :
    listObjectParts env0
        ⟨["u"], [("u", ⟨⟨⟨0, 7, 1⟩,
            [("content-type", "application/octet-stream")], []⟩, []⟩)], none⟩
        "b" "o" "u" 5 7 = .ok ⟨"b", "o", "u", 7, [], false, 0⟩
    ∧ listObjectParts env0 stA "b" "o" "u" 0 2000
        = (listObjectParts env0 stA "b" "o" "u" 0 1000).map
            (fun r => { r with MaxParts := 2000 })
    ∧ (1 : Nat) <
        (⟨2, "d41d8cd98f00b204e9800998ecf8427e", 0, 5242880⟩ : partInfo).PartNumber
    ∧ ((true = true
          ↔ ([⟨1, "d41d8cd98f00b204e9800998ecf8427e", 0, 5242880⟩] :
              List partInfo).length < (listedCandidates metaA 0).length)
        ∧ (true = true →
            (([⟨1, "d41d8cd98f00b204e9800998ecf8427e", 0, 5242880⟩] :
                List partInfo).getLast?).map (fun e => e.PartNumber)
              = some 1)) := by
  refine ⟨?_, ?_, ?_, ?_⟩
  · exact listObjectParts_spec.1 env0 ⟨[], [], none⟩ "b" "o" [] "u" 7 5 7
      ⟨["u"], [("u", ⟨⟨⟨0, 7, 1⟩,
          [("content-type", "application/octet-stream")], []⟩, []⟩)], none⟩
      (by decide) (by decide) (by decide) (by decide)
  · exact listObjectParts_spec.2.1 env0 stA "b" "o" "u" 0 2000 (by decide)
  · exact listObjectParts_spec.2.2.1 env0 stA "b" "o" "u" 1 10
      ⟨"b", "o", "u", 10, [⟨2, "d41d8cd98f00b204e9800998ecf8427e", 0, 5242880⟩],
        false, 0⟩
      ⟨metaA, ["object1", "object2"]⟩ 0
      (by decide) (by decide) (by decide) (by decide)
      (by decide) (by decide) (by decide)
      ⟨2, "d41d8cd98f00b204e9800998ecf8427e", 0, 5242880⟩ (by decide)
  · exact listObjectParts_spec.2.2.2 env0 stA "b" "o" "u" 0 1
      ⟨"b", "o", "u", 1, [⟨1, "d41d8cd98f00b204e9800998ecf8427e", 0, 5242880⟩],
        true, 1⟩
      ⟨metaA, ["object1", "object2"]⟩
      (by decide) (by decide) (by decide) (by decide) (by decide) (by decide)

/-! ### Claim C7: trimmed part files are deleted before the commit -/

/-- The part-index scan finds nothing exactly when no listed part has the
number. -/
theorem objectPartIndexAux_none_iff (n : Nat) :
    ∀ (l : List objectPartInfo),
      objectPartIndexAux n l = none ↔ ∀ p ∈ l, p.number ≠ n := by
  intro l
  induction l with
  | nil => simp [objectPartIndexAux]
  | cons d rest ih =>
    unfold objectPartIndexAux
    by_cases hd : d.number == n
    · rw [if_pos hd]
      have hdn : d.number = n := by simpa using hd
      constructor
      · intro h
        exact absurd h (by simp)
      · intro h
        exact absurd hdn (h d (List.mem_cons_self d rest))
    · rw [if_neg hd]
      rw [Option.map_eq_none', ih]
      constructor
      · intro h p hp
        rcases List.mem_cons.mp hp with hp' | hp'
        · rw [hp']
          simpa using hd
        · exact h p hp'
      · intro h p hp
        exact h p (List.mem_cons_of_mem d hp)

/-- C7: during a successful `CompleteMultipartUpload`, every stored part
whose number is not among the client parts has its file deleted strictly
before the commit rename in the operation's event order, and — given the
upload directory's files are those of its recorded parts — every file of
the committed object directory belongs to a stored part whose number was
selected by the client. -/
theorem complete_trims_unselected (env : Env) (st : MpartObjState)
    (b o uid : String) (parts : List completePart) (now : Nat) (rf : Bool)
    (etagStr : String) (st' : MpartObjState) (ev : List StorageEvent)
    (ud : UploadState)
    (hud : lookupUpload st uid = some ud)
    (hsync : ∀ f ∈ ud.partFiles, ∃ cp ∈ ud.xlMeta.parts, f = cp.name)
    (hc : CompleteMultipartUpload env st b o uid parts now rf = (.ok etagStr, st', ev)) :
    (∀ cp ∈ ud.xlMeta.parts, (¬ ∃ q ∈ parts, q.PartNumber = cp.number) →
      ∃ pre post, ev = pre ++ [StorageEvent.commitRename] ++ post
        ∧ StorageEvent.deletePartFile cp.name ∈ pre)
    ∧ (∀ m fs, st'.committed = some (m, fs) →
        ∀ f ∈ fs, ∃ cp ∈ ud.xlMeta.parts, f = cp.name
          ∧ ∃ q ∈ parts, cp.number = q.PartNumber) := by
  obtain ⟨udx, ps, sz, heq, hmd5, hval, hst, hev⟩ :=
    complete_ok_shape env st b o uid parts now rf etagStr st' ev hc
  rw [hud] at heq
  obtain rfl := (Option.some.injEq _ _).mp heq
  have hnum := validateParts_numbers ud.xlMeta parts ps sz hval
  constructor
  · intro cp hcp hnotsel
    refine ⟨(completeTrimmed ud (completeXLMeta ud ps sz now etagStr)).map
        (fun c => StorageEvent.deletePartFile c.name),
      (uploadsTail (completeStagedState st uid ud ps sz now etagStr) uid rf).2,
      hev, ?_⟩
    apply List.mem_map_of_mem
    unfold completeTrimmed
    apply List.mem_filter.mpr
    refine ⟨hcp, ?_⟩
    have hnone : (completeXLMeta ud ps sz now etagStr).ObjectPartIndex cp.number
        = none := by
      unfold xlMetaV1.ObjectPartIndex
      rw [objectPartIndexAux_none_iff]
      intro p hp hpn
      apply hnotsel
      have hpin : p.number ∈ ps.map (fun x => x.number) := List.mem_map_of_mem _ hp
      rw [hnum] at hpin
      obtain ⟨q, hq, hqn⟩ := List.mem_map.mp hpin
      exact ⟨q, hq, hqn.trans hpn⟩
    simp [hnone]
  · intro m fs hcm f hf
    rw [hst, uploadsTail_committed] at hcm
    simp only [completeStagedState, Option.some.injEq, Prod.mk.injEq] at hcm
    obtain ⟨hm, hfs⟩ := hcm
    rw [← hfs] at hf
    have hmemf := List.mem_filter.mp hf
    obtain ⟨cp, hcp, rfl⟩ := hsync f hmemf.1
    refine ⟨cp, hcp, rfl, ?_⟩
    by_contra hns
    have htr : cp ∈ completeTrimmed ud (completeXLMeta ud ps sz now etagStr) := by
      unfold completeTrimmed
      apply List.mem_filter.mpr
      refine ⟨hcp, ?_⟩
      have hnone : (completeXLMeta ud ps sz now etagStr).ObjectPartIndex cp.number
          = none := by
        unfold xlMetaV1.ObjectPartIndex
        rw [objectPartIndexAux_none_iff]
        intro p hp hpn
        apply hns
        have hpin : p.number ∈ ps.map (fun x => x.number) := List.mem_map_of_mem _ hp
        rw [hnum] at hpin
        obtain ⟨q, hq, hqn⟩ := List.mem_map.mp hpin
        exact ⟨q, hq, (hqn.trans hpn).symm⟩
      simp [hnone]
    have hcond := of_decide_eq_true hmemf.2
    apply hcond
    exact List.any_eq_true.mpr ⟨cp, htr, by simp⟩

/-- C7 witness: completing with only part 2 selected deletes part 1's file
before the commit rename. -/
theorem complete_trims_unselected_w :
    ∃ pre post,
      [StorageEvent.deletePartFile "object1", StorageEvent.commitRename,
        StorageEvent.deleteMultipartDir]
        = pre ++ [StorageEvent.commitRename] ++ post
      ∧ StorageEvent.deletePartFile "object1" ∈ pre :=
  (complete_trims_unselected env0 stA "b" "o" "u" [⟨2, etag0⟩] 7 false
      "59adb24ef3cdbe0297f05b395827453f-1"
      ⟨[], [],
        some (⟨⟨5242880, 7, 1⟩,
                [("content-type", "application/octet-stream"),
                 ("md5Sum", "59adb24ef3cdbe0297f05b395827453f-1")],
                [⟨2, "object2", etag0, 5242880⟩]⟩, ["object2"])⟩
      [StorageEvent.deletePartFile "object1", StorageEvent.commitRename,
        StorageEvent.deleteMultipartDir]
      ⟨metaA, ["object1", "object2"]⟩
      (by decide) (by decide) (by decide)).1
    ⟨1, "object1", etag0, 5242880⟩ (by decide) (by decide)

/-! ### Claim C6: `abortMultipartUpload` -/

/-- After removing an upload directory, looking it up fails. -/
theorem lookupUpload_after_remove (js : List String)
    (dirs : List (String × UploadState)) (uid : String)
    (c : Option (xlMetaV1 × List String)) :
    lookupUpload ⟨js, removeUpload dirs uid, c⟩ uid = none := by
  unfold lookupUpload
  have hfind : (removeUpload dirs uid).find? (fun e => e.1 == uid) = none := by
    rw [List.find?_eq_none]
    intro x hx
    unfold removeUpload at hx
    have := List.of_mem_filter hx
    simpa using this
  rw [hfind]
  rfl

/-- C6: aborting a non-existent uploadID fails `InvalidUploadID` with no
state change and no storage effect; aborting an existing upload (with the
registry readable and duplicate-free, per the registry invariant) succeeds,
removes the upload's directory and its registry entry, and deletes the
whole per-object multipart directory exactly when no other upload IDs
remain. -/
theorem abortMultipartUpload_spec :
    (∀ (env : Env) (st : MpartObjState) (b o uid : String) (rf : Bool),
        env.isValidBucketName b = true → env.isBucketExist b = true →
        env.isValidObjectName o = true →
        lookupUpload st uid = none →
        abortMultipartUpload env st b o uid rf = (.error .InvalidUploadID, st, []))
    ∧ (∀ (env : Env) (st : MpartObjState) (b o uid : String) (ud : UploadState)
        (res : Except ObjErr Unit) (st' : MpartObjState) (ev : List StorageEvent),
        env.isValidBucketName b = true → env.isBucketExist b = true →
        env.isValidObjectName o = true →
        lookupUpload st uid = some ud → st.uploadsJSON.Nodup →
        abortMultipartUpload env st b o uid false = (res, st', ev) →
        res = .ok () ∧ lookupUpload st' uid = none ∧ uid ∉ st'.uploadsJSON
          ∧ (.deleteMultipartDir ∈ ev ↔ st.uploadsJSON.erase uid = [])) := by
  constructor
  · intro env st b o uid rf h1 h2 h3 hud
    unfold abortMultipartUpload
    rw [h1, h2, h3, hud]
    simp
  · intro env st b o uid ud res st' ev h1 h2 h3 hud hnd h
    unfold abortMultipartUpload at h
    rw [h1, h2, h3, hud] at h
    simp only [not_true_eq_false, if_false, Bool.false_eq_true, uploadsTail,
      Bool.false_eq_true, if_false, Prod.mk.injEq] at h
    by_cases hrem : (st.uploadsJSON.erase uid).isEmpty
    · rw [if_pos hrem] at h
      obtain ⟨hr, hs, he⟩ := h
      subst hs
      subst he
      refine ⟨hr.symm, rfl, by simp, by simpa using List.isEmpty_iff.mp hrem⟩
    · rw [if_neg hrem] at h
      obtain ⟨hr, hs, he⟩ := h
      subst hs
      subst he
      refine ⟨hr.symm, lookupUpload_after_remove _ _ _ _, ?_, ?_⟩
      · intro hmem
        exact absurd ((List.Nodup.mem_erase_iff hnd).mp hmem).1 (by simp)
      · simp only [List.mem_nil_iff, false_iff]
        intro hempty
        exact hrem (by simp [hempty])

/-- C6 witness: aborting the only upload of the object deletes the whole
multipart directory and leaves the registry without the uploadID. -/
theorem abortMultipartUpload_spec_w :
    (.ok () : Except ObjErr Unit) = .ok ()
    ∧ lookupUpload (⟨[], [], none⟩ : MpartObjState) "u" = none
    ∧ "u" ∉ (⟨[], [], none⟩ : MpartObjState).uploadsJSON
    ∧ (StorageEvent.deleteMultipartDir ∈ [StorageEvent.deleteMultipartDir]
        ↔ stA.uploadsJSON.erase "u" = []) :=
  abortMultipartUpload_spec.2 env0 stA "b" "o" "u" ⟨metaA, ["object1", "object2"]⟩
    (.ok ()) ⟨[], [], none⟩ [.deleteMultipartDir]
    (by decide) (by decide) (by decide) (by decide) (by decide) (by decide)

/-- C9 witness: aborting `u` with a failing `uploads.json` read while `v`
is still live wipes the whole directory and succeeds. -/
theorem readFail_deletes_multipart_dir_w :
    abortMultipartUpload env0 stUV "b" "o" "u" true
        = (.ok (), ⟨[], [], none⟩, [.deleteMultipartDir])
    ∧ (⟨[], [], none⟩ : MpartObjState).uploadDirs = []
    ∧ (⟨[], [], none⟩ : MpartObjState).uploadsJSON = []
    ∧ StorageEvent.deleteMultipartDir ∈ [StorageEvent.deleteMultipartDir] :=
  ⟨by decide,
   readFail_deletes_multipart_dir.1 env0 stUV "b" "o" "u" (.ok ())
     ⟨[], [], none⟩ [.deleteMultipartDir] (by decide) rfl⟩

end XLMultipart
